import Mathlib

/-!
Shallow embedding of the Discipline & Rewards Engine of `src/bot.py`
(timebot).  The per-user sqlite database is modelled as an explicit
`UserDB` record threaded through pure functions; each Lean definition
mirrors one Python function of the source, keeping its name.

Conventions of the embedding:
* Calendar dates are integers counting days, aligned so that day `0` is a
  Monday (`datetime.date.weekday` of the source, 0 = Monday, becomes
  `d % 7` with Python-style flooring `Int.emod`).
* Timestamps (`datetime` values, `created_at` columns) are integers
  counting seconds, with `startOfDay d = 86400 * d`; the source's
  `end_of_day` yields 23:59:59 (microsecond 0), i.e. `86400 * d + 86399`.
* Python `//` (floor division) on possibly-negative integers is
  `Int.fdiv`; `%` is `Int.emod` (both match Python's semantics).
* Empty-string dates (the source stores dates as ISO strings, with `''`
  decoded to `None` by `iso_to_date`) become `Option Int`.
* SQL rows become list elements; the `workdays_mask` string becomes its
  list of characters.
* `float` money/hour arithmetic of the bonus-goal evaluator is embedded
  over `ℚ`.
-/

namespace Timebot

/-! ### Constants (module head of bot.py) -/

def MAX_STREAK_FREEZES : Int := 2

def STREAK_FREEZE_COST : Int := 120

/-- `len(LEAGUE_NAMES)` in the source: the 10 league names. -/
def N_LEAGUES : Int := 10

def LEAGUE_PROMOTION_MINUTES : List Int :=
  [0, 240, 300, 360, 420, 480, 540, 600, 660, 720, 10 ^ 9]

def LEAGUE_SAFE_MINUTES : List Int :=
  [0, 0, 120, 150, 180, 210, 240, 270, 300, 330, 360]

def LEAGUE_PROMOTION_REWARD : List Int :=
  [0, 0, 25, 35, 45, 55, 65, 75, 90, 110, 140]

def LEAGUE_DEMOTION_PENALTY : List Int :=
  [0, 0, 20, 30, 40, 50, 60, 70, 85, 100, 120]

/-- `STREAK_CHALLENGE_OPTIONS = {7: 100, 14: 250, 30: 600}` as a lookup. -/
def STREAK_CHALLENGE_OPTIONS : Int → Option Int := fun days =>
  if days = 7 then some 100
  else if days = 14 then some 250
  else if days = 30 then some 600
  else none

def DEFAULT_WORKDAYS_MASK : List Char := ['1', '1', '1', '1', '1', '0', '0']

/-! ### Calendar helpers -/

/-- `datetime.date.weekday()`: 0 = Monday … 6 = Sunday.  Day 0 of the
embedding is a Monday. -/
def weekday (d : Int) : Int := d % 7

/-- `week_start_sunday(value) = value - ((value.weekday() + 1) % 7)`. -/
def week_start_sunday (d : Int) : Int := d - ((weekday d + 1) % 7)

/-- `datetime.date()` of a timestamp: the day containing second `t`. -/
def dateOf (t : Int) : Int := Int.fdiv t 86400

/-- `start_of_day(value)`: midnight opening day `d`. -/
def start_of_day (d : Int) : Int := 86400 * d

/-- `end_of_day(value)`: 23:59:59 of day `d` (microsecond stripped). -/
def end_of_day (d : Int) : Int := 86400 * d + 86399

/-! ### Workday mask -/

/-- `normalize_workdays_mask`: a mask that is not 7 characters of `0`/`1`,
or is all-zero, is replaced by the default. -/
def normalize_workdays_mask (mask : List Char) : List Char :=
  if mask.length ≠ 7 ∨ mask.any (fun ch => ch ≠ '0' ∧ ch ≠ '1') then
    DEFAULT_WORKDAYS_MASK
  else if mask = ['0', '0', '0', '0', '0', '0', '0'] then
    DEFAULT_WORKDAYS_MASK
  else mask

/-- `is_regular_workday(mask, date)`: the normalized mask marks the
weekday with `'1'`. -/
def is_regular_workday (mask : List Char) (d : Int) : Bool :=
  (normalize_workdays_mask mask).getD (weekday d).toNat '0' = '1'

/-! ### Data model -/

/-- One `point_transactions` row (the columns the engine reads back). -/
structure Tx where
  delta_points : Int
  reason : String
deriving DecidableEq, Repr

/-- One `work_sessions` row. -/
structure Session where
  created_at : Int
  duration_seconds : Int
deriving DecidableEq, Repr

/-- One `habit_state` row, as stored. -/
structure HabitState where
  streak_days : Int
  streak_last_counted_date : Option Int
  streak_freezes : Int
  league_tier : Int
  league_week_start : Option Int
  workdays_mask : List Char
deriving DecidableEq, Repr

/-- One `streak_challenges` row. -/
structure StreakChallenge where
  days_target : Int
  days_done : Int
  wager_points : Int
  status : String
  start_date : Option Int
  last_counted_date : Option Int
deriving DecidableEq, Repr

/-- One `bonus_goals` row. -/
structure BonusGoal where
  id : Int
  target_type : String
  target_value : ℚ
  reward_points : Int
  start_at : Int
  deadline_at : Int
  status : String
  completed_at : Option Int
deriving DecidableEq, Repr

/-- One `discipline_day_overrides` row: `(target_date, is_workday)`. -/
structure DayOverride where
  target_date : Int
  is_workday : Bool
deriving DecidableEq, Repr

/-- The per-user slice of the sqlite database that the Discipline &
Rewards Engine reads and writes.  `challenge` is the newest
`streak_challenges` row (the source keeps at most one `active` row and
always addresses it through `get_active_streak_challenge`). -/
structure UserDB where
  points_balance : Int
  points_per_minute : Int
  rate_per_hour : ℚ
  point_transactions : List Tx
  work_sessions : List Session
  habit : HabitState
  challenge : Option StreakChallenge
  bonus_goals : List BonusGoal
  day_overrides : List DayOverride
deriving DecidableEq, Repr

/-! ### Work-log aggregator -/

/-- `range_seconds(user, start, end)`: 0 when `end <= start`, else the sum
of `duration_seconds` over sessions with `start <= created_at <= end`. -/
def range_seconds (log : List Session) (s e : Int) : Int :=
  if e ≤ s then 0
  else ((log.filter fun r => s ≤ r.created_at ∧ r.created_at ≤ e).map
    fun r => r.duration_seconds).sum

/-- `has_activity_on_date(user, date)`. -/
def has_activity_on_date (log : List Session) (d : Int) : Bool :=
  range_seconds log (start_of_day d) (end_of_day d) > 0

/-! ### Points ledger -/

/-- `calculate_session_points(duration_seconds, points_per_minute)`. -/
def calculate_session_points (duration_seconds points_per_minute : Int) : Int :=
  if duration_seconds ≤ 0 ∨ points_per_minute ≤ 0 then 0
  else max 1 (Int.fdiv (duration_seconds * points_per_minute) 60)

/-- `apply_points_transaction`: read balance, add `delta_points`; fail
without mutating when the result would be negative and `allow_negative`
is off; otherwise write the balance and append one ledger row. -/
def apply_points_transaction (db : UserDB) (delta_points : Int)
    (reason : String) (allow_negative : Bool := false) :
    (Bool × Int) × UserDB :=
  let current_balance := db.points_balance
  let new_balance := current_balance + delta_points
  if ¬allow_negative ∧ new_balance < 0 then ((false, current_balance), db)
  else
    ((true, new_balance),
      { db with
        points_balance := new_balance
        point_transactions :=
          db.point_transactions ++ [⟨delta_points, reason⟩] })

/-- `deduct_points_up_to`: deduct `min(balance, desired_points)`, never
failing and never driving the balance negative. -/
def deduct_points_up_to (db : UserDB) (desired_points : Int)
    (reason : String) : Int × UserDB :=
  if desired_points ≤ 0 then (0, db)
  else
    let balance := db.points_balance
    let deducted := min balance desired_points
    if deducted ≤ 0 then (0, db)
    else
      (deducted,
        { db with
          points_balance := balance - deducted
          point_transactions :=
            db.point_transactions ++ [⟨-deducted, reason⟩] })

/-- `award_points_for_session`: credit `calculate_session_points` directly
(balance write plus one `work_session` ledger row). -/
def award_points_for_session (db : UserDB) (duration_seconds : Int) :
    Int × UserDB :=
  let points := calculate_session_points duration_seconds db.points_per_minute
  if points ≤ 0 then (0, db)
  else
    (points,
      { db with
        points_balance := db.points_balance + points
        point_transactions :=
          db.point_transactions ++ [⟨points, "work_session"⟩] })

/-- `buy_market_item` (the balance-touching core): given the fetched
item's `is_active` flag and `cost_points`, refuse inactive items and
insufficient balances without mutating; otherwise write the lowered
balance and append one `market_purchase` ledger row. -/
def buy_market_item (db : UserDB) (cost_points : Int) (is_active : Bool) :
    Bool × UserDB :=
  if ¬is_active then (false, db)
  else if db.points_balance < cost_points then (false, db)
  else
    (true,
      { db with
        points_balance := db.points_balance - cost_points
        point_transactions :=
          db.point_transactions ++ [⟨-cost_points, "market_purchase"⟩] })

/-! ### Habit state plumbing -/

def clamp_tier (tier : Int) : Int := max 1 (min N_LEAGUES tier)

/-- `row_to_habit_state`: reading a row clamps the tier and normalizes
the mask (streak fields are taken as stored). -/
def row_to_habit_state (h : HabitState) : HabitState :=
  { h with
    league_tier := clamp_tier h.league_tier
    workdays_mask := normalize_workdays_mask h.workdays_mask }

/-- `save_habit_state`: every write clamps `streak_days` at 0, the freeze
count into `[0, MAX_STREAK_FREEZES]`, the tier into `[1, N_LEAGUES]`, and
normalizes the mask. -/
def save_habit_state (h : HabitState) : HabitState :=
  { streak_days := max 0 h.streak_days
    streak_last_counted_date := h.streak_last_counted_date
    streak_freezes := max 0 (min MAX_STREAK_FREEZES h.streak_freezes)
    league_tier := clamp_tier h.league_tier
    league_week_start := h.league_week_start
    workdays_mask := normalize_workdays_mask h.workdays_mask }

/-- Writing the habit row back into the store (`save_habit_state` is the
only code path that updates `habit_state`). -/
def dbWriteHabit (db : UserDB) (h : HabitState) : UserDB :=
  { db with habit := save_habit_state h }

/-- `get_day_override(user, date)`: the unique override row, if any. -/
def get_day_override (db : UserDB) (d : Int) : Option Bool :=
  (db.day_overrides.find? fun o => o.target_date == d).map fun o => o.is_workday

/-- `is_effective_workday(user, date, state)`. -/
def is_effective_workday (db : UserDB) (state : HabitState) (d : Int) : Bool :=
  match get_day_override db d with
  | some b => b
  | none => is_regular_workday state.workdays_mask d

/-- The `while cursor <= end_date` walk of `required_workdays_between`,
with the remaining iteration count `(end_date - cursor + 1)` made an
explicit structural argument so the definition computes. -/
def required_workdays_go (db : UserDB) (state : HabitState) :
    Nat → Int → List Int
  | 0, _ => []
  | n + 1, cursor =>
    (if is_effective_workday db state cursor then [cursor] else []) ++
      required_workdays_go db state n (cursor + 1)

/-- `required_workdays_between(user, start, end, state)`: the effective
workdays in `[start, end]`, ascending (the source walks a cursor; an
empty interval yields `[]`). -/
def required_workdays_between (db : UserDB) (state : HabitState)
    (start_d end_d : Int) : List Int :=
  required_workdays_go db state (end_d + 1 - start_d).toNat start_d

/-! ### Streak challenges -/

def get_active_streak_challenge (db : UserDB) : Option StreakChallenge :=
  match db.challenge with
  | some c => if c.status = "active" then some c else none
  | none => none

/-- `fail_streak_challenge`: flip the active row to `failed` (the SQL
`UPDATE … WHERE status = 'active'` touches nothing when terminal). -/
def fail_streak_challenge (db : UserDB) : UserDB :=
  match db.challenge with
  | some c =>
    if c.status = "active" then
      { db with challenge := some { c with status := "failed" } }
    else db
  | none => db

/-- `challenge_payout(wager) = int(round(wager * 1.5))`.  Python `round`
rounds half to even; `wager * 1.5` ends in .5 exactly when `wager` is
odd (and is exact in binary floating point at these magnitudes). -/
def challenge_payout (wager_points : Int) : Int :=
  let twice := 3 * wager_points
  if twice % 2 = 0 then twice / 2
  else
    let k := Int.fdiv twice 2
    if k % 2 = 0 then k else k + 1

/-- `complete_streak_challenge`: flip the active row to `completed`, then
credit the payout through the ledger. -/
def complete_streak_challenge (db : UserDB) (payout_points : Int) :
    Bool × UserDB :=
  match db.challenge with
  | some c =>
    if c.status = "active" then
      let db := { db with challenge := some { c with status := "completed" } }
      (true, (apply_points_transaction db payout_points "streak_challenge_reward").2)
    else (false, db)
  | none => (false, db)

/-! ### Events

The user-visible strings the engine returns are modelled as an event
datatype carrying exactly the data interpolated into each message. -/

inductive Event where
  | leaguePromoted (tier_before tier_after minutes reward : Int)
  | leagueDemoted (tier_before tier_after minutes deducted : Int)
  | challengeFailed (wager : Int)
  | freezeUsed (missed_date remaining : Int)
  | streakBrokenDuringChallenge
  | streakBroken
  | nonWorkdayInfo
  | challengeCompleted (days_target payout : Int)
  | bonusGoalCompleted (reward : Int)
  | bonusGoalExpired
deriving DecidableEq, Repr

/-! ### League rollover -/

/-- The `while stored_week < current_week` loop of
`evaluate_league_rollover`: score one finished week, advance the anchor
by 7 days, repeat.  The loop's own termination measure
`(current_week - stored_week)` is made explicit structural fuel (each
iteration shrinks it by 7, so it never runs out while the guard holds). -/
def league_go (fuel : Nat) (db : UserDB) (tier stored_week current_week : Int) :
    UserDB × Int × List Event :=
  match fuel with
  | 0 => (db, tier, [])
  | fuel + 1 =>
    if stored_week < current_week then
      let week_start := stored_week
      let week_end := week_start + 6
      let minutes := Int.fdiv
        (range_seconds db.work_sessions (start_of_day week_start) (end_of_day week_end)) 60
      let tier_before := tier
      let promo_threshold := LEAGUE_PROMOTION_MINUTES.getD tier.toNat 0
      let safe_threshold := LEAGUE_SAFE_MINUTES.getD tier.toNat 0
      if tier < N_LEAGUES ∧ minutes ≥ promo_threshold then
        let tier := tier + 1
        let reward := LEAGUE_PROMOTION_REWARD.getD tier.toNat 0
        let db :=
          if reward > 0 then (apply_points_transaction db reward "league_promotion").2
          else db
        let r := league_go fuel db tier (stored_week + 7) current_week
        (r.1, r.2.1, Event.leaguePromoted tier_before tier minutes reward :: r.2.2)
      else if tier > 1 ∧ minutes < safe_threshold then
        let tier := tier - 1
        let penalty := LEAGUE_DEMOTION_PENALTY.getD tier_before.toNat 0
        let d := deduct_points_up_to db penalty "league_demotion"
        let r := league_go fuel d.2 tier (stored_week + 7) current_week
        (r.1, r.2.1, Event.leagueDemoted tier_before tier minutes d.1 :: r.2.2)
      else
        league_go fuel db tier (stored_week + 7) current_week
    else (db, tier, [])

/-- The `while stored_week < current_week` loop, started with enough fuel
for every iteration (`(current_week - stored_week)` at entry). -/
def league_loop (db : UserDB) (tier stored_week current_week : Int) :
    UserDB × Int × List Event :=
  league_go (current_week - stored_week).toNat db tier stored_week current_week

/-- `evaluate_league_rollover(user, state)`. -/
def evaluate_league_rollover (db : UserDB) (state : HabitState) (now : Int) :
    UserDB × List Event :=
  let today := dateOf now
  let current_week := week_start_sunday today
  match state.league_week_start with
  | none =>
    (dbWriteHabit db { state with league_week_start := some current_week }, [])
  | some stored_week =>
    if stored_week ≥ current_week then (db, [])
    else
      let tier := clamp_tier state.league_tier
      let r := league_loop db tier stored_week current_week
      (dbWriteHabit r.1
        { state with league_tier := r.2.1, league_week_start := some current_week },
        r.2.2)

/-! ### Missed-workday catch-up -/

/-- The challenge part of `evaluate_discipline` (lines 1511–1526): an
active challenge whose own missed-workday list is nonempty is failed.
Returns whether a challenge is still active (the `challenge` variable
after the block, deciding strict mode for the streak loop). -/
def challenge_catchup (db : UserDB) (state : HabitState) (today : Int) :
    UserDB × List Event × Bool :=
  match get_active_streak_challenge db with
  | none => (db, [], false)
  | some challenge =>
    let last_ch_date := challenge.last_counted_date.getD (today - 1)
    let missed_for_challenge :=
      required_workdays_between db state (last_ch_date + 1) (today - 1)
    if missed_for_challenge = [] then (db, [], true)
    else
      (fail_streak_challenge db,
        [Event.challengeFailed challenge.wager_points], false)

/-- The `for missed_date in missed_workdays` loop of
`evaluate_discipline`: challenge mode breaks the streak at once;
otherwise a freeze absorbs the day, a freezeless positive streak breaks
(and stops the loop), and a zero streak just advances the counted date.
The returned flag is the source's `state_changed`. -/
def replay_missed (strict_active : Bool) (state : HabitState) :
    List Int → HabitState × List Event × Bool
  | [] => (state, [], false)
  | missed_date :: rest =>
    if strict_active ∧ state.streak_days > 0 then
      ({ state with
          streak_days := 0
          streak_last_counted_date := some missed_date },
        [Event.streakBrokenDuringChallenge], true)
    else if state.streak_days > 0 ∧ state.streak_freezes > 0 then
      let state' := { state with
        streak_freezes := state.streak_freezes - 1
        streak_last_counted_date := some missed_date }
      let r := replay_missed strict_active state' rest
      (r.1, Event.freezeUsed missed_date state'.streak_freezes :: r.2.1, true)
    else if state.streak_days > 0 then
      ({ state with
          streak_days := 0
          streak_last_counted_date := some missed_date },
        [Event.streakBroken], true)
    else
      let state' := { state with streak_last_counted_date := some missed_date }
      let r := replay_missed strict_active state' rest
      (r.1, r.2.1, true)

/-- The streak portion of `evaluate_discipline` (source lines
1528–1572): replay the missed workdays since the last counted date and
save the habit row when anything changed.  `challenge_active` is the
source's `challenge is not None` after the challenge block. -/
def discipline_streak_replay (db : UserDB) (state : HabitState)
    (challenge_active : Bool) (today : Int) : UserDB × List Event :=
  match state.streak_last_counted_date with
  | none => (db, [])
  | some last_counted =>
    let missed_workdays :=
      required_workdays_between db state (last_counted + 1) (today - 1)
    let rp := replay_missed challenge_active state missed_workdays
    (if rp.2.2 then dbWriteHabit db rp.1 else db, rp.2.1)

/-- `evaluate_discipline(user)`: league rollover first, then the
challenge missed-day check, then the streak missed-day replay. -/
def evaluate_discipline (db : UserDB) (now : Int) : UserDB × List Event :=
  let state := row_to_habit_state db.habit
  let lr := evaluate_league_rollover db state now
  let db := lr.1
  let state := row_to_habit_state db.habit
  let today := dateOf now
  let cc := challenge_catchup db state today
  let sp := discipline_streak_replay cc.1 state cc.2.2 today
  (sp.1, lr.2 ++ cc.2.1 ++ sp.2)

/-- The streak-counting step of `register_activity_day` (source lines
1585–1607): a zero streak or a gap restarts at 1 today, a same-day call
changes nothing, a contiguous day increments. -/
def register_streak_state (db : UserDB) (state : HabitState) (today : Int) :
    HabitState :=
  if state.streak_days ≤ 0 then
    { state with streak_days := 1, streak_last_counted_date := some today }
  else
    match state.streak_last_counted_date with
    | none =>
      { state with streak_days := 1, streak_last_counted_date := some today }
    | some last_counted =>
      if today - last_counted = 0 then state
      else if required_workdays_between db state (last_counted + 1) (today - 1) ≠ [] then
        { state with streak_days := 1, streak_last_counted_date := some today }
      else
        { state with
            streak_days := state.streak_days + 1
            streak_last_counted_date := some today }

/-- The trailing completion check of `register_activity_day` (source
lines 1643–1649): a still-active challenge whose `days_done` reached the
target completes with payout `challenge_payout(wager)`. -/
def challenge_completion_check (db : UserDB) (events : List Event) :
    Option StreakChallenge → UserDB × List Event
  | none => (db, events)
  | some c =>
    if c.days_done ≥ c.days_target then
      let payout := challenge_payout c.wager_points
      let comp := complete_streak_challenge db payout
      if comp.1 then
        (comp.2, events ++ [Event.challengeCompleted c.days_target payout])
      else (comp.2, events)
    else (db, events)

/-- The challenge-counting step of `register_activity_day` (source lines
1610–1649): same-day is a no-op, a missed required workday fails the
challenge, otherwise `days_done` advances; then the completion check
runs on whatever challenge object is still active. -/
def register_challenge_update (db : UserDB) (state : HabitState)
    (events : List Event) (today : Int) : UserDB × List Event :=
  match get_active_streak_challenge db with
  | none => (db, events)
  | some challenge =>
    let last_ch_date := challenge.last_counted_date.getD (today - 1)
    if today - last_ch_date = 0 then
      challenge_completion_check db events (some challenge)
    else if required_workdays_between db state (last_ch_date + 1) (today - 1) ≠ [] then
      challenge_completion_check (fail_streak_challenge db)
        (events ++ [Event.challengeFailed challenge.wager_points]) none
    else
      let challenge := { challenge with
        days_done := challenge.days_done + 1
        last_counted_date := some today }
      challenge_completion_check { db with challenge := some challenge }
        events (some challenge)

/-- The body of `register_activity_day` after its initial catch-up call
(source lines 1577–1651). -/
def register_activity_core (db : UserDB) (events : List Event) (now : Int) :
    UserDB × List Event :=
  let state := row_to_habit_state db.habit
  let today := dateOf now
  let workday_today := is_effective_workday db state today
  if ¬workday_today then (db, events ++ [Event.nonWorkdayInfo])
  else
    let state := register_streak_state db state today
    let db := dbWriteHabit db state
    register_challenge_update db state events today

/-- `register_activity_day(user)`: catch up first, then count today. -/
def register_activity_day (db : UserDB) (now : Int) : UserDB × List Event :=
  let ed := evaluate_discipline db now
  register_activity_core ed.1 ed.2 now

/-! ### Bonus-goal evaluator -/

/-- `bonus_goal_progress(goal, profile)`: hours (or money) worked in
`[start_at, min(now, deadline_at)]`. -/
def bonus_goal_progress (log : List Session) (rate_per_hour : ℚ)
    (goal : BonusGoal) (now : Int) : ℚ :=
  let period_end := min now goal.deadline_at
  let worked_seconds := range_seconds log goal.start_at period_end
  if goal.target_type = "money" then
    ((worked_seconds : ℚ) / 3600) * rate_per_hour
  else (worked_seconds : ℚ) / 3600

/-- The per-goal loop of `evaluate_bonus_goals`, threading the ledger
(balance and transaction log) through the goal rows in order.  Only
`active` rows are fetched and guarded by the SQL status check. -/
def evaluate_bonus_goals_loop (log : List Session) (rate_per_hour : ℚ)
    (now : Int) : List BonusGoal → Int → List Tx →
    List BonusGoal × Int × List Tx × List Event
  | [], balance, txs => ([], balance, txs, [])
  | goal :: rest, balance, txs =>
    if goal.status = "active" then
      let progress := bonus_goal_progress log rate_per_hour goal now
      let is_completed := progress ≥ goal.target_value
      if is_completed ∧ now ≤ goal.deadline_at then
        let goal' := { goal with status := "completed", completed_at := some now }
        let r := evaluate_bonus_goals_loop log rate_per_hour now rest
          (balance + goal.reward_points)
          (txs ++ [⟨goal.reward_points, "bonus_goal_reward"⟩])
        (goal' :: r.1, r.2.1, r.2.2.1,
          Event.bonusGoalCompleted goal.reward_points :: r.2.2.2)
      else if now > goal.deadline_at then
        let goal' := { goal with status := "expired" }
        let r := evaluate_bonus_goals_loop log rate_per_hour now rest balance txs
        (goal' :: r.1, r.2.1, r.2.2.1, Event.bonusGoalExpired :: r.2.2.2)
      else
        let r := evaluate_bonus_goals_loop log rate_per_hour now rest balance txs
        (goal :: r.1, r.2.1, r.2.2.1, r.2.2.2)
    else
      let r := evaluate_bonus_goals_loop log rate_per_hour now rest balance txs
      (goal :: r.1, r.2.1, r.2.2.1, r.2.2.2)

/-- The fetch order of `list_bonus_goals`: the SQL
`ORDER BY deadline_at ASC, id DESC`. -/
def goal_fetch_le (a b : BonusGoal) : Prop :=
  a.deadline_at < b.deadline_at ∨
    (a.deadline_at = b.deadline_at ∧ b.id ≤ a.id)

instance : DecidableRel goal_fetch_le := fun a b => by
  unfold goal_fetch_le
  infer_instance

/-- `list_bonus_goals(user, statuses=("active",), limit=100)`: the
active rows ordered by `(deadline_at ASC, id DESC)`, at most 100 of
them (the SQL `LIMIT ?`). -/
def list_bonus_goals_active (goals : List BonusGoal) : List BonusGoal :=
  ((goals.filter fun g => g.status == "active").insertionSort
    goal_fetch_le).take 100

/-- The effect of one pass of `evaluate_bonus_goals` on the table row a
fetched goal refers to: the conditional `UPDATE ... WHERE id = ? AND
status = 'active'` statements (completion first, else expiry), with the
decision computed from the row's own values. -/
def bonus_goal_row_update (log : List Session) (rate_per_hour : ℚ)
    (now : Int) (goal : BonusGoal) : BonusGoal :=
  let progress := bonus_goal_progress log rate_per_hour goal now
  if progress ≥ goal.target_value ∧ now ≤ goal.deadline_at then
    if goal.status = "active" then
      { goal with status := "completed", completed_at := some now }
    else goal
  else if now > goal.deadline_at then
    if goal.status = "active" then { goal with status := "expired" }
    else goal
  else goal

/-- `evaluate_bonus_goals(user)`: fetch at most 100 active goals in
deadline order, walk them through the ledger loop, and write each
fetched goal's table row back through its `UPDATE`; rows whose id was
not fetched are untouched. -/
def evaluate_bonus_goals (db : UserDB) (now : Int) : UserDB × List Event :=
  let fetched := list_bonus_goals_active db.bonus_goals
  let r := evaluate_bonus_goals_loop db.work_sessions db.rate_per_hour now
    fetched db.points_balance db.point_transactions
  ({ db with
      bonus_goals := db.bonus_goals.map fun g =>
        if fetched.any fun f => f.id == g.id then
          bonus_goal_row_update db.work_sessions db.rate_per_hour now g
        else g
      points_balance := r.2.1
      point_transactions := r.2.2.1 }, r.2.2.2)

/-! ### Remaining habit-state writers -/

/-- `toggle_regular_weekday(user, idx)`: flip one bit of the regular
mask, re-normalizing (an all-zero result falls back to the default). -/
def toggle_regular_weekday (db : UserDB) (weekday_idx : Int) : UserDB :=
  let state := row_to_habit_state db.habit
  if weekday_idx < 0 ∨ weekday_idx > 6 then db
  else
    let mask_list := normalize_workdays_mask state.workdays_mask
    let mask_list := mask_list.set weekday_idx.toNat
      (if mask_list.getD weekday_idx.toNat '0' = '1' then '0' else '1')
    let new_mask := normalize_workdays_mask mask_list
    dbWriteHabit db { state with workdays_mask := new_mask }

/-- `cb_discipline_buy_freeze`: refuse at the cap, escrow the cost
through the ledger, then increment and save. -/
def buy_streak_freeze (db : UserDB) : UserDB :=
  let state := row_to_habit_state db.habit
  if state.streak_freezes ≥ MAX_STREAK_FREEZES then db
  else
    let r := apply_points_transaction db (-STREAK_FREEZE_COST) "streak_freeze_purchase"
    if ¬r.1.1 then r.2
    else dbWriteHabit r.2 { state with streak_freezes := state.streak_freezes + 1 }

/-- The jackpot block of `play_casino_spin` (lines 1755–1761): a jackpot
grants one freeze when below the cap. -/
def casino_jackpot_freeze_bonus (db : UserDB) (tier : String) : UserDB × Int :=
  if tier = "jackpot" then
    let habit := row_to_habit_state db.habit
    if habit.streak_freezes < MAX_STREAK_FREEZES then
      (dbWriteHabit db { habit with streak_freezes := habit.streak_freezes + 1 }, 1)
    else (db, 0)
  else (db, 0)

end Timebot

namespace Timebot

/-! ### Auxiliary source-side definitions used by the ledger claims -/

/-- The reward-credit block inside `evaluate_bonus_goals` (lines
1051–1067): a direct balance write plus one appended
`bonus_goal_reward` ledger row. -/
def bonus_goal_reward_credit (db : UserDB) (reward_points : Int) : UserDB :=
  { db with
    points_balance := db.points_balance + reward_points
    point_transactions :=
      db.point_transactions ++ [⟨reward_points, "bonus_goal_reward"⟩] }

/-- The balance-mutating operations of the engine: signed transactions,
deduct-up-to penalties, session awards, market purchases, and
bonus-goal reward credits. -/
inductive LedgerOp where
  | applyTx (delta : Int) (reason : String) (allow_negative : Bool)
  | deductUpTo (desired : Int) (reason : String)
  | sessionAward (duration_seconds : Int)
  | purchase (cost : Int) (is_active : Bool)
  | bonusReward (reward : Int)
deriving DecidableEq, Repr

/-- Dispatch one balance-mutating operation to its source function. -/
def applyLedgerOp (db : UserDB) : LedgerOp → UserDB
  | .applyTx delta reason alneg => (apply_points_transaction db delta reason alneg).2
  | .deductUpTo desired reason => (deduct_points_up_to db desired reason).2
  | .sessionAward duration => (award_points_for_session db duration).2
  | .purchase cost is_active => (buy_market_item db cost is_active).2
  | .bonusReward reward => bonus_goal_reward_credit db reward

/-- Ledger conservation: the stored balance is the sum of all ledger
deltas for the user. -/
def ledger_conservation (db : UserDB) : Prop :=
  db.points_balance = (db.point_transactions.map fun t => t.delta_points).sum

instance (db : UserDB) : Decidable (ledger_conservation db) := by
  unfold ledger_conservation; infer_instance

/-! ### Spec-side reference definitions (for refinement comparisons) -/

/-- The session-points rule as §4.1 of the spec words it:
`floor(durationSeconds * pointsPerMinute / 60)`, floored to a minimum of
1 point if the computed value is positive, else 0 (the computed value
`duration * ppm / 60` is positive exactly when `duration * ppm` is). -/
def session_points_spec (duration_seconds points_per_minute : Int) : Int :=
  if duration_seconds * points_per_minute > 0 then
    max 1 (Int.fdiv (duration_seconds * points_per_minute) 60)
  else 0

/-! ### Concrete fixtures for closed statements -/

/-- A minimal concrete user database for closed witness statements. -/
def baseDB : UserDB :=
  { points_balance := 0
    points_per_minute := 1
    rate_per_hour := 0
    point_transactions := []
    work_sessions := []
    habit :=
      { streak_days := 0
        streak_last_counted_date := none
        streak_freezes := 1
        league_tier := 1
        league_week_start := none
        workdays_mask := DEFAULT_WORKDAYS_MASK }
    challenge := none
    bonus_goals := []
    day_overrides := [] }

end Timebot

namespace Timebot

/-! ### C5 — insufficient funds leaves everything untouched -/

/-- C5: whenever `allow_negative` is off and `balance + delta < 0`,
`apply_points_transaction` returns failure together with the unchanged
balance and mutates neither the balance nor the transaction log (the
whole database is returned unchanged). -/
theorem apply_points_transaction_insufficient_funds (db : UserDB)
    (delta_points : Int) (reason : String)
    (h : db.points_balance + delta_points < 0) :
    apply_points_transaction db delta_points reason false =
      ((false, db.points_balance), db) := by
  simp [apply_points_transaction, h]

def dbC5 : UserDB := { baseDB with points_balance := 30 }

/-- Witness for C5: a delta of −50 at balance 30 fails and the balance
stays 30. -/
theorem apply_points_transaction_insufficient_funds_witness :
    dbC5.points_balance + (-50) < 0 ∧
      apply_points_transaction dbC5 (-50) "spend" false = ((false, 30), dbC5) :=
  ⟨by decide, apply_points_transaction_insufficient_funds dbC5 (-50) "spend" (by decide)⟩

/-! ### C9 — session points versus the spec formula -/

/-- C9 counterexample: the claim quantifies over *every*
`durationSeconds` and `pointsPerMinute`, but at `(-60, -1)` the code
returns 0 (its guard rejects non-positive inputs) while the spec's
formula computes a positive value and so yields 1. -/
theorem calculate_session_points_spec_counterexample :
    calculate_session_points (-60) (-1) = 0 ∧
      session_points_spec (-60) (-1) = 1 ∧
      calculate_session_points (-60) (-1) ≠ session_points_spec (-60) (-1) := by
  decide

/-- C9 amended: for every `durationSeconds ≥ 0` (durations are never
negative) and every `pointsPerMinute`, the points credited for one
session equal the spec's formula: `floor(duration * ppm / 60)` floored
to a minimum of 1 when the computed value is positive, else 0. -/
theorem calculate_session_points_matches_spec (d ppm : Int) (hd : 0 ≤ d) :
    calculate_session_points d ppm = session_points_spec d ppm := by
  unfold calculate_session_points session_points_spec
  split_ifs with hA hB hB
  · exfalso
    rcases hA with h | h
    · have hd0 : d = 0 := le_antisymm h hd
      rw [hd0, zero_mul] at hB
      exact lt_irrefl 0 hB
    · exact absurd hB (not_lt.mpr (mul_nonpos_iff.mpr (Or.inl ⟨hd, h⟩)))
  · rfl
  · rfl
  · exfalso
    push_neg at hA
    exact hB (mul_pos hA.1 hA.2)

/-- Witness for C9 (amended): 90 seconds at 2 points per minute credit
3 points on both sides. -/
theorem calculate_session_points_matches_spec_witness :
    (0 : Int) ≤ 90 ∧ calculate_session_points 90 2 = session_points_spec 90 2 :=
  ⟨by decide, calculate_session_points_matches_spec 90 2 (by decide)⟩

/-! ### C2 — the freeze-then-break catch-up scenario -/

/-- The C2 fixture: mask Mon–Fri, 1 freeze, streak 5, last counted on a
Monday (day 0), league anchor already at the current week's Sunday
(day −1), no sessions, no challenge. -/
def dbC2 : UserDB :=
  { baseDB with
    habit :=
      { streak_days := 5
        streak_last_counted_date := some 0
        streak_freezes := 1
        league_tier := 1
        league_week_start := some (-1)
        workdays_mask := DEFAULT_WORKDAYS_MASK } }

/-- C2: running catch-up on Thursday (day 3) replays Tuesday (day 1),
which consumes the freeze (event carries the day and the remaining count
0, streak still 5 at that point, counted date Tuesday), then Wednesday
(day 2) breaks the streak to 0 with counted date Wednesday; Thursday
itself is not evaluated (the counted date stays at Wednesday and no
further event is emitted). -/
theorem evaluate_discipline_freeze_then_break_scenario :
    evaluate_discipline dbC2 (3 * 86400) =
      ({ dbC2 with
          habit :=
            { streak_days := 0
              streak_last_counted_date := some 2
              streak_freezes := 0
              league_tier := 1
              league_week_start := some (-1)
              workdays_mask := DEFAULT_WORKDAYS_MASK } },
        [Event.freezeUsed 1 0, Event.streakBroken]) := by
  decide

/-! ### C4 — ledger conservation -/

/-- Every single balance-mutating operation preserves ledger
conservation. -/
theorem applyLedgerOp_conservation (db : UserDB) (op : LedgerOp)
    (h : ledger_conservation db) : ledger_conservation (applyLedgerOp db op) := by
  cases op with
  | applyTx delta reason alneg =>
    unfold ledger_conservation at *
    simp only [applyLedgerOp, apply_points_transaction]
    split_ifs <;> simp [h]
  | deductUpTo desired reason =>
    unfold ledger_conservation at *
    simp only [applyLedgerOp, deduct_points_up_to]
    split_ifs <;> simp [h, sub_eq_add_neg]
  | sessionAward duration =>
    unfold ledger_conservation at *
    simp only [applyLedgerOp, award_points_for_session]
    split_ifs <;> simp [h]
  | purchase cost is_active =>
    unfold ledger_conservation at *
    simp only [applyLedgerOp, buy_market_item]
    split_ifs <;> simp [h, sub_eq_add_neg]
  | bonusReward reward =>
    unfold ledger_conservation at *
    simp [bonus_goal_reward_credit, applyLedgerOp, h]

/-- C4: for every user state satisfying ledger conservation and every
sequence of balance-mutating operations (signed transactions,
deduct-up-to penalties, session awards, purchases, bonus rewards), the
balance still equals the sum of all ledger deltas afterwards — the
balance is never changed without appending exactly one matching ledger
entry. -/
theorem ledger_conservation_all_sequences (db : UserDB) (ops : List LedgerOp)
    (h : ledger_conservation db) :
    ledger_conservation (ops.foldl applyLedgerOp db) := by
  induction ops generalizing db with
  | nil => exact h
  | cons op rest ih =>
    exact ih (applyLedgerOp db op) (applyLedgerOp_conservation db op h)

/-- Witness for C4: a fresh profile (balance 0, empty ledger) run through
a mixed sequence of operations still satisfies conservation. -/
theorem ledger_conservation_all_sequences_witness :
    ledger_conservation baseDB ∧
      ledger_conservation
        (([LedgerOp.applyTx 100 "bonus" false,
           LedgerOp.sessionAward 600,
           LedgerOp.deductUpTo 40 "league_demotion",
           LedgerOp.purchase 30 true,
           LedgerOp.applyTx (-500) "spend" false,
           LedgerOp.bonusReward 25] : List LedgerOp).foldl applyLedgerOp baseDB) :=
  ⟨by decide, ledger_conservation_all_sequences baseDB _ (by decide)⟩

end Timebot
namespace Timebot

/-! ### C8 — habit-state invariants -/

/-- Well-formedness of a workdays mask: exactly 7 characters, each `'0'`
or `'1'`, and not all-zero. -/
def mask_wf (m : List Char) : Prop :=
  m.length = 7 ∧ (∀ ch ∈ m, ch = '0' ∨ ch = '1') ∧
    m ≠ ['0', '0', '0', '0', '0', '0', '0']

instance mask_wf_decidable (m : List Char) : Decidable (mask_wf m) := by
  unfold mask_wf; infer_instance

/-- The habit-row invariants of the spec: freezes in
`[0, MAX_STREAK_FREEZES]`, tier in `[1, N_LEAGUES]`, well-formed mask. -/
def habit_invariant (h : HabitState) : Prop :=
  0 ≤ h.streak_freezes ∧ h.streak_freezes ≤ MAX_STREAK_FREEZES ∧
    1 ≤ h.league_tier ∧ h.league_tier ≤ N_LEAGUES ∧ mask_wf h.workdays_mask

instance habit_invariant_decidable (h : HabitState) :
    Decidable (habit_invariant h) := by
  unfold habit_invariant; infer_instance

theorem mask_wf_normalize (m : List Char) :
    mask_wf (normalize_workdays_mask m) := by
  unfold normalize_workdays_mask
  split_ifs with h1 h2
  · decide
  · decide
  · push_neg at h1
    refine ⟨h1.1, ?_, h2⟩
    intro ch hch
    have hb : (m.any fun c => decide (c ≠ '0' ∧ c ≠ '1')) = false :=
      Bool.eq_false_iff.mpr h1.2
    rw [List.any_eq_false] at hb
    have hc := hb ch hch
    simp only [decide_eq_true_eq, not_and, not_not] at hc
    by_cases h0 : ch = '0'
    · exact Or.inl h0
    · exact Or.inr (hc h0)

theorem habit_invariant_save (h : HabitState) :
    habit_invariant (save_habit_state h) := by
  refine ⟨?_, ?_, ?_, ?_, mask_wf_normalize _⟩ <;>
    simp only [save_habit_state, clamp_tier, MAX_STREAK_FREEZES, N_LEAGUES] <;>
    omega

/-! Habit-preservation of the ledger and challenge primitives. -/

theorem apply_points_transaction_habit (db : UserDB) (delta : Int)
    (reason : String) (alneg : Bool) :
    ((apply_points_transaction db delta reason alneg).2).habit = db.habit := by
  simp only [apply_points_transaction]
  split_ifs <;> rfl

theorem deduct_points_up_to_habit (db : UserDB) (desired : Int)
    (reason : String) :
    ((deduct_points_up_to db desired reason).2).habit = db.habit := by
  simp only [deduct_points_up_to]
  split_ifs <;> rfl

theorem fail_streak_challenge_habit (db : UserDB) :
    (fail_streak_challenge db).habit = db.habit := by
  simp only [fail_streak_challenge]
  split
  · split_ifs <;> rfl
  · rfl

theorem complete_streak_challenge_habit (db : UserDB) (payout : Int) :
    ((complete_streak_challenge db payout).2).habit = db.habit := by
  simp only [complete_streak_challenge]
  split
  · split_ifs
    · rw [apply_points_transaction_habit]
    · rfl
  · rfl

theorem challenge_catchup_habit (db : UserDB) (state : HabitState)
    (today : Int) :
    (challenge_catchup db state today).1.habit = db.habit := by
  simp only [challenge_catchup]
  split
  · rfl
  · split_ifs
    · rfl
    · exact fail_streak_challenge_habit db

/-- The league rollover leaves the habit row alone or writes it through
`save_habit_state`. -/
theorem evaluate_league_rollover_habit_cases (db : UserDB)
    (state : HabitState) (now : Int) :
    (evaluate_league_rollover db state now).1.habit = db.habit ∨
      ∃ s, (evaluate_league_rollover db state now).1.habit = save_habit_state s := by
  simp only [evaluate_league_rollover]
  split
  · exact Or.inr ⟨_, rfl⟩
  · split_ifs
    · exact Or.inl rfl
    · exact Or.inr ⟨_, rfl⟩

theorem discipline_streak_replay_habit_cases (db : UserDB)
    (state : HabitState) (b : Bool) (today : Int) :
    (discipline_streak_replay db state b today).1.habit = db.habit ∨
      ∃ s, (discipline_streak_replay db state b today).1.habit = save_habit_state s := by
  simp only [discipline_streak_replay]
  split
  · exact Or.inl rfl
  · split_ifs
    · exact Or.inr ⟨_, rfl⟩
    · exact Or.inl rfl

/-- Catch-up leaves the habit row alone or writes it through
`save_habit_state`. -/
theorem evaluate_discipline_habit_cases (db : UserDB) (now : Int) :
    (evaluate_discipline db now).1.habit = db.habit ∨
      ∃ s, (evaluate_discipline db now).1.habit = save_habit_state s := by
  have hlr := evaluate_league_rollover_habit_cases db (row_to_habit_state db.habit) now
  simp only [evaluate_discipline]
  rcases discipline_streak_replay_habit_cases
      (challenge_catchup (evaluate_league_rollover db (row_to_habit_state db.habit) now).1
        (row_to_habit_state (evaluate_league_rollover db (row_to_habit_state db.habit) now).1.habit)
        (dateOf now)).1
      (row_to_habit_state (evaluate_league_rollover db (row_to_habit_state db.habit) now).1.habit)
      (challenge_catchup (evaluate_league_rollover db (row_to_habit_state db.habit) now).1
        (row_to_habit_state (evaluate_league_rollover db (row_to_habit_state db.habit) now).1.habit)
        (dateOf now)).2.2
      (dateOf now) with h | ⟨s, h⟩
  · rw [h, challenge_catchup_habit]
    exact hlr
  · exact Or.inr ⟨s, h⟩

theorem challenge_completion_check_habit (db : UserDB) (events : List Event)
    (c : Option StreakChallenge) :
    (challenge_completion_check db events c).1.habit = db.habit := by
  simp only [challenge_completion_check]
  split
  · rfl
  · split_ifs <;>
      first
        | rfl
        | rw [complete_streak_challenge_habit]

theorem register_challenge_update_habit (db : UserDB) (state : HabitState)
    (events : List Event) (today : Int) :
    (register_challenge_update db state events today).1.habit = db.habit := by
  simp only [register_challenge_update]
  split
  · rfl
  · split_ifs <;>
      (rw [challenge_completion_check_habit]
       try rw [fail_streak_challenge_habit])

theorem register_activity_core_habit_cases (db : UserDB)
    (events : List Event) (now : Int) :
    (register_activity_core db events now).1.habit = db.habit ∨
      ∃ s, (register_activity_core db events now).1.habit = save_habit_state s := by
  simp only [register_activity_core]
  split_ifs <;>
    first
      | exact Or.inl rfl
      | (rw [register_challenge_update_habit]; exact Or.inr ⟨_, rfl⟩)

theorem register_activity_day_habit_cases (db : UserDB) (now : Int) :
    (register_activity_day db now).1.habit = db.habit ∨
      ∃ s, (register_activity_day db now).1.habit = save_habit_state s := by
  have hed := evaluate_discipline_habit_cases db now
  have hcore := register_activity_core_habit_cases
    (evaluate_discipline db now).1 (evaluate_discipline db now).2 now
  simp only [register_activity_day]
  rcases hcore with h | ⟨s, h⟩
  · rw [h]
    exact hed
  · exact Or.inr ⟨s, h⟩

/-- C8: after each operation that writes habit state (catch-up with its
freeze consumption, activity registration, weekday toggle, freeze
purchase, casino jackpot freeze bonus), either the habit row was not
written at all (left byte-identical) or it satisfies all invariants:
`0 ≤ streak_freezes ≤ MAX_STREAK_FREEZES`, `1 ≤ league_tier ≤ N_LEAGUES`,
and a 7-character 0/1 mask that is not all-zero (every actual write goes
through `save_habit_state`, which enforces them). -/
theorem habit_invariants_after_state_writes (db : UserDB)
    (now weekday_idx : Int) (tier : String) :
    ((evaluate_discipline db now).1.habit = db.habit ∨
        habit_invariant (evaluate_discipline db now).1.habit) ∧
      ((register_activity_day db now).1.habit = db.habit ∨
        habit_invariant (register_activity_day db now).1.habit) ∧
      ((toggle_regular_weekday db weekday_idx).habit = db.habit ∨
        habit_invariant (toggle_regular_weekday db weekday_idx).habit) ∧
      ((buy_streak_freeze db).habit = db.habit ∨
        habit_invariant (buy_streak_freeze db).habit) ∧
      ((casino_jackpot_freeze_bonus db tier).1.habit = db.habit ∨
        habit_invariant (casino_jackpot_freeze_bonus db tier).1.habit) := by
  refine ⟨?_, ?_, ?_, ?_, ?_⟩
  · rcases evaluate_discipline_habit_cases db now with h | ⟨s, h⟩
    · exact Or.inl h
    · exact Or.inr (h ▸ habit_invariant_save s)
  · rcases register_activity_day_habit_cases db now with h | ⟨s, h⟩
    · exact Or.inl h
    · exact Or.inr (h ▸ habit_invariant_save s)
  · simp only [toggle_regular_weekday, dbWriteHabit]
    split_ifs <;>
      first
        | exact Or.inl rfl
        | exact Or.inr (habit_invariant_save _)
  · simp only [buy_streak_freeze, dbWriteHabit]
    split_ifs <;>
      first
        | exact Or.inl rfl
        | exact Or.inl (apply_points_transaction_habit db _ _ _)
        | exact Or.inr (habit_invariant_save _)
  · simp only [casino_jackpot_freeze_bonus, dbWriteHabit]
    split_ifs <;>
      first
        | exact Or.inl rfl
        | exact Or.inr (habit_invariant_save _)

end Timebot
namespace Timebot

/-! ### C7 — bonus-goal evaluation -/

/-- Spec-side reference (§4.5): does an active goal complete now —
progress at least the target and the deadline not yet passed? -/
def bonus_goal_completes (log : List Session) (rate : ℚ) (now : Int)
    (g : BonusGoal) : Bool :=
  g.status = "active" ∧
    bonus_goal_progress log rate g now ≥ g.target_value ∧ now ≤ g.deadline_at

/-- Spec-side reference (§4.5): the transition of one goal row — in
priority order, an active goal completes (stamping `completed_at = now`),
else expires when past its deadline, else stays; a terminal goal is
untouched. -/
def bonus_goal_spec_step (log : List Session) (rate : ℚ) (now : Int)
    (g : BonusGoal) : BonusGoal :=
  if g.status = "active" then
    if bonus_goal_progress log rate g now ≥ g.target_value ∧ now ≤ g.deadline_at then
      { g with status := "completed", completed_at := some now }
    else if now > g.deadline_at then { g with status := "expired" }
    else g
  else g

/-- Spec-side reference: the points credited for one goal row (the
reward exactly when the goal completes now, else nothing). -/
def bonus_goal_spec_credit (log : List Session) (rate : ℚ) (now : Int)
    (g : BonusGoal) : Int :=
  if bonus_goal_completes log rate now g then g.reward_points else 0

/-- Spec-side reference: the user-visible event of one goal row. -/
def bonus_goal_spec_event (log : List Session) (rate : ℚ) (now : Int)
    (g : BonusGoal) : Option Event :=
  if g.status = "active" then
    if bonus_goal_progress log rate g now ≥ g.target_value ∧ now ≤ g.deadline_at then
      some (Event.bonusGoalCompleted g.reward_points)
    else if now > g.deadline_at then some Event.bonusGoalExpired
    else none
  else none

theorem evaluate_bonus_goals_loop_spec (log : List Session) (rate : ℚ)
    (now : Int) (goals : List BonusGoal) (balance : Int) (txs : List Tx) :
    evaluate_bonus_goals_loop log rate now goals balance txs =
      (goals.map (bonus_goal_spec_step log rate now),
        balance + (goals.map (bonus_goal_spec_credit log rate now)).sum,
        txs ++ ((goals.filter (bonus_goal_completes log rate now)).map
          fun g => (⟨g.reward_points, "bonus_goal_reward"⟩ : Tx)),
        goals.filterMap (bonus_goal_spec_event log rate now)) := by
  induction goals generalizing balance txs with
  | nil => simp [evaluate_bonus_goals_loop]
  | cons g rest ih =>
    simp only [evaluate_bonus_goals_loop]
    by_cases h1 : g.status = "active"
    · by_cases h2 : bonus_goal_progress log rate g now ≥ g.target_value ∧
          now ≤ g.deadline_at
      · simp [h1, h2, ih, bonus_goal_spec_step, bonus_goal_spec_credit,
          bonus_goal_spec_event, bonus_goal_completes, List.filter_cons,
          add_assoc]
      · by_cases h3 : now > g.deadline_at
        · simp [h1, h2, h3, ih, bonus_goal_spec_step, bonus_goal_spec_credit,
            bonus_goal_spec_event, bonus_goal_completes, List.filter_cons]
        · simp [h1, h2, h3, ih, bonus_goal_spec_step, bonus_goal_spec_credit,
            bonus_goal_spec_event, bonus_goal_completes, List.filter_cons]
    · simp [h1, ih, bonus_goal_spec_step, bonus_goal_spec_credit,
        bonus_goal_spec_event, bonus_goal_completes, List.filter_cons]

/-- The table-row `UPDATE` of one evaluation pass coincides with the
spec's per-goal transition on every row. -/
theorem bonus_goal_row_update_eq_spec_step (log : List Session)
    (rate : ℚ) (now : Int) (g : BonusGoal) :
    bonus_goal_row_update log rate now g =
      bonus_goal_spec_step log rate now g := by
  simp only [bonus_goal_row_update, bonus_goal_spec_step]
  split_ifs <;> rfl

/-- C7 fixture: 101 active goals, ids 0–100, all with the same past
deadline (day −1, i.e. deadline before `now = 0`) and an unreachable
target, over an empty session log. -/
def dbC7 : UserDB :=
  { baseDB with
    bonus_goals := (List.range 101).map fun i =>
      { id := (i : Int)
        target_type := "hours"
        target_value := 1
        reward_points := 10
        start_at := -10 * 86400
        deadline_at := -86400
        status := "active"
        completed_at := none } }

/-- C7 counterexample: with 101 active goals all past their deadline,
one evaluation pass expires only the 100 goals the `LIMIT 100` fetch
returns; the goal with id 0 (last in the `deadline ASC, id DESC` fetch
order) is left `active` even though `now > deadline_at`, so the claim's
"for every active bonus goal … when now > deadline_at it transitions to
expired" fails as stated. -/
theorem bonus_goal_limit_counterexample :
    dbC7.bonus_goals.length = 101 ∧
      (∀ g ∈ dbC7.bonus_goals, g.status = "active" ∧ g.deadline_at < 0) ∧
      (∃ g ∈ (evaluate_bonus_goals dbC7 0).1.bonus_goals,
        g.status = "active" ∧ g.deadline_at < 0) := by
  decide

/-- C7 (amended): one evaluation pass fetches at most 100 active goals
(ordered by deadline ascending, then id descending — the source's
`LIMIT 100` query) and transforms exactly the table rows of the fetched
goals by the spec's priority rules — an active goal with enough
progress on or before the deadline becomes `completed` with
`completed_at = now` and its `reward_points` credited through exactly
one ledger entry; an active goal past its deadline becomes `expired`
with no payout regardless of progress; a goal already in a terminal
status is never changed; and every row whose id was not fetched
(including active goals beyond the first 100) is left untouched. -/
theorem evaluate_bonus_goals_correct (db : UserDB) (now : Int) :
    ((list_bonus_goals_active db.bonus_goals).length ≤ 100 ∧
      ∀ g ∈ list_bonus_goals_active db.bonus_goals,
        g ∈ db.bonus_goals ∧ g.status = "active") ∧
      (evaluate_bonus_goals db now).1.bonus_goals =
        db.bonus_goals.map (fun g =>
          if (list_bonus_goals_active db.bonus_goals).any
              (fun f => f.id == g.id) then
            bonus_goal_spec_step db.work_sessions db.rate_per_hour now g
          else g) ∧
      (evaluate_bonus_goals db now).1.points_balance =
        db.points_balance +
          ((list_bonus_goals_active db.bonus_goals).map
            (bonus_goal_spec_credit db.work_sessions db.rate_per_hour now)).sum ∧
      (evaluate_bonus_goals db now).1.point_transactions =
        db.point_transactions ++
          (((list_bonus_goals_active db.bonus_goals).filter
              (bonus_goal_completes db.work_sessions db.rate_per_hour now)).map
            fun g => (⟨g.reward_points, "bonus_goal_reward"⟩ : Tx)) ∧
      (evaluate_bonus_goals db now).2 =
        (list_bonus_goals_active db.bonus_goals).filterMap
          (bonus_goal_spec_event db.work_sessions db.rate_per_hour now) ∧
      ∀ g ∈ db.bonus_goals, g.status ≠ "active" →
        bonus_goal_spec_step db.work_sessions db.rate_per_hour now g = g := by
  refine ⟨⟨?_, ?_⟩, ?_, ?_, ?_, ?_, ?_⟩
  · exact List.length_take_le _ _
  · intro g hg
    have h1 := List.mem_of_mem_take hg
    have h2 := (List.mem_insertionSort goal_fetch_le).1 h1
    have h3 := List.mem_filter.1 h2
    exact ⟨h3.1, by simpa using h3.2⟩
  · simp only [evaluate_bonus_goals, bonus_goal_row_update_eq_spec_step]
  · simp [evaluate_bonus_goals, evaluate_bonus_goals_loop_spec]
  · simp [evaluate_bonus_goals, evaluate_bonus_goals_loop_spec]
  · simp [evaluate_bonus_goals, evaluate_bonus_goals_loop_spec]
  · intro g _ hg
    simp [bonus_goal_spec_step, hg]

end Timebot
namespace Timebot

/-! ### Interval characterization of the missed-workday enumeration -/

theorem mem_required_workdays_go (db : UserDB) (state : HabitState)
    (n : Nat) (cursor d : Int) :
    d ∈ required_workdays_go db state n cursor ↔
      cursor ≤ d ∧ d < cursor + n ∧ is_effective_workday db state d = true := by
  induction n generalizing cursor with
  | zero =>
    simp only [required_workdays_go, List.not_mem_nil, false_iff, not_and]
    intro h1 h2
    exfalso
    omega
  | succ n ih =>
    by_cases hw : is_effective_workday db state cursor
    · simp only [required_workdays_go, if_pos hw, List.singleton_append,
        List.mem_cons, ih]
      constructor
      · rintro (rfl | ⟨h1, h2, h3⟩)
        · exact ⟨le_refl _, by omega, hw⟩
        · exact ⟨by omega, by omega, h3⟩
      · rintro ⟨h1, h2, h3⟩
        by_cases hd : d = cursor
        · exact Or.inl hd
        · exact Or.inr ⟨by omega, by omega, h3⟩
    · simp only [required_workdays_go, if_neg hw, List.nil_append, ih]
      constructor
      · rintro ⟨h1, h2, h3⟩
        exact ⟨by omega, by omega, h3⟩
      · rintro ⟨h1, h2, h3⟩
        have hne : cursor ≠ d := by
          intro h
          exact hw (h ▸ h3)
        exact ⟨by omega, by omega, h3⟩

/-- A day is enumerated by `required_workdays_between` exactly when it
lies in the interval and is an effective workday. -/
theorem mem_required_workdays_between (db : UserDB) (state : HabitState)
    (s e d : Int) :
    d ∈ required_workdays_between db state s e ↔
      s ≤ d ∧ d ≤ e ∧ is_effective_workday db state d = true := by
  unfold required_workdays_between
  rw [mem_required_workdays_go]
  constructor
  · rintro ⟨h1, h2, h3⟩
    exact ⟨h1, by omega, h3⟩
  · rintro ⟨h1, h2, h3⟩
    exact ⟨h1, by omega, h3⟩

/-! ### C6 — a missed workday fails an active challenge unconditionally -/

/-- An already-caught-up league (stored anchor at or past the current
week's Sunday) makes the rollover a strict no-op. -/
theorem evaluate_league_rollover_caught_up (db : UserDB) (state : HabitState)
    (now : Int) (a : Int) (ha : state.league_week_start = some a)
    (h : week_start_sunday (dateOf now) ≤ a) :
    evaluate_league_rollover db state now = (db, []) := by
  simp only [evaluate_league_rollover, ha]
  rw [if_pos]
  exact h

theorem get_active_streak_challenge_eq (db : UserDB) (c : StreakChallenge)
    (hc : db.challenge = some c) (hact : c.status = "active") :
    get_active_streak_challenge db = some c := by
  simp [get_active_streak_challenge, hc, hact]

theorem fail_streak_challenge_eq (db : UserDB) (c : StreakChallenge)
    (hc : db.challenge = some c) (hact : c.status = "active") :
    fail_streak_challenge db =
      { db with challenge := some { c with status := "failed" } } := by
  simp [fail_streak_challenge, hc, hact]

theorem challenge_catchup_fails (db : UserDB) (state : HabitState)
    (today : Int) (c : StreakChallenge) (hc : db.challenge = some c)
    (hact : c.status = "active") (L : Int) (hL : c.last_counted_date = some L)
    (hmiss : required_workdays_between db state (L + 1) (today - 1) ≠ []) :
    challenge_catchup db state today =
      (fail_streak_challenge db, [Event.challengeFailed c.wager_points], false) := by
  simp only [challenge_catchup, get_active_streak_challenge_eq db c hc hact, hL,
    Option.getD_some]
  rw [if_neg hmiss]

theorem discipline_streak_replay_other_fields (db : UserDB)
    (state : HabitState) (b : Bool) (today : Int) :
    (discipline_streak_replay db state b today).1.challenge = db.challenge ∧
      (discipline_streak_replay db state b today).1.points_balance =
        db.points_balance ∧
      (discipline_streak_replay db state b today).1.point_transactions =
        db.point_transactions := by
  simp only [discipline_streak_replay]
  split
  · exact ⟨rfl, rfl, rfl⟩
  · split_ifs <;> exact ⟨rfl, rfl, rfl⟩

/-- C6: for every user with an active streak challenge whose own last
counted date is `L`, as soon as some effective workday lies strictly
between `L` and yesterday, catch-up (stated with the league phase
already caught up, so it is a no-op) marks the challenge `failed` and
emits the failure event; no payout is made and the escrowed wager is not
refunded — balance and transaction log are exactly as before, with no
compensating ledger entry.  The statement quantifies over every habit
state, in particular every freeze count: freezes are never consumed to
protect the challenge. -/
theorem streak_challenge_fails_on_missed_workday (db : UserDB) (now : Int)
    (c : StreakChallenge) (hc : db.challenge = some c)
    (hact : c.status = "active") (L : Int) (hL : c.last_counted_date = some L)
    (a : Int) (hanchor : db.habit.league_week_start = some a)
    (ha : week_start_sunday (dateOf now) ≤ a) (d : Int)
    (hd1 : L < d) (hd2 : d < dateOf now - 1)
    (hwd : is_effective_workday db (row_to_habit_state db.habit) d = true) :
    (evaluate_discipline db now).1.challenge =
        some { c with status := "failed" } ∧
      (evaluate_discipline db now).1.points_balance = db.points_balance ∧
      (evaluate_discipline db now).1.point_transactions =
        db.point_transactions ∧
      Event.challengeFailed c.wager_points ∈ (evaluate_discipline db now).2 := by
  have hlr : evaluate_league_rollover db (row_to_habit_state db.habit) now =
      (db, []) :=
    evaluate_league_rollover_caught_up db _ now a hanchor ha
  have hmiss : required_workdays_between db (row_to_habit_state db.habit)
      (L + 1) (dateOf now - 1) ≠ [] := by
    intro hnil
    have hd := (mem_required_workdays_between db (row_to_habit_state db.habit)
      (L + 1) (dateOf now - 1) d).mpr ⟨by omega, by omega, hwd⟩
    rw [hnil] at hd
    exact List.not_mem_nil d hd
  have hcc := challenge_catchup_fails db (row_to_habit_state db.habit)
    (dateOf now) c hc hact L hL hmiss
  obtain ⟨hch, hbal, htx⟩ := discipline_streak_replay_other_fields
    (fail_streak_challenge db) (row_to_habit_state db.habit) false (dateOf now)
  have hfail := fail_streak_challenge_eq db c hc hact
  simp only [evaluate_discipline, hlr, hcc]
  refine ⟨?_, ?_, ?_, ?_⟩
  · rw [hch, hfail]
  · rw [hbal, hfail]
  · rw [htx, hfail]
  · simp

def cC6 : StreakChallenge :=
  { days_target := 7
    days_done := 2
    wager_points := 100
    status := "active"
    start_date := some 0
    last_counted_date := some 0 }

def dbC6 : UserDB :=
  { baseDB with
    challenge := some cC6
    habit := { baseDB.habit with league_week_start := some (-1) } }

/-- Witness for C6: a Mon–Fri user with an active 7-day/100-point
challenge last counted on Monday (day 0) misses Tuesday; catch-up on
Thursday fails the challenge with no ledger change. -/
theorem streak_challenge_fails_on_missed_workday_witness :
    (evaluate_discipline dbC6 (3 * 86400)).1.challenge =
        some { cC6 with status := "failed" } ∧
      (evaluate_discipline dbC6 (3 * 86400)).1.points_balance =
        dbC6.points_balance ∧
      (evaluate_discipline dbC6 (3 * 86400)).1.point_transactions =
        dbC6.point_transactions ∧
      Event.challengeFailed cC6.wager_points ∈
        (evaluate_discipline dbC6 (3 * 86400)).2 :=
  streak_challenge_fails_on_missed_workday dbC6 (3 * 86400) cC6 rfl rfl 0 rfl
    (-1) rfl (by decide) 1 (by decide) (by decide) (by decide)

end Timebot
namespace Timebot

/-! ### C3 — league rollover scores completed weeks, oldest first -/

/-- Spec-side reference (§4.3): the week starts the rollover loop scores
when it starts `k` whole weeks behind: `stored, stored+7, …`, oldest
first. -/
def league_weeks : Nat → Int → List Int
  | 0, _ => []
  | k + 1, stored => stored :: league_weeks k (stored + 7)

/-- Spec-side reference (§4.3): scoring one completed week starting at
`wk` on a (tier, balance) pair — promote by 1 and credit
`promotion_reward[new tier]` iff `tier < max ∧ minutes ≥
promotion_threshold[tier]`; else demote by 1 and deduct up to
`demotion_penalty[old tier]` iff `tier > 1 ∧ minutes <
safe_threshold[tier]`; else unchanged. -/
def league_week_spec (log : List Session) (wk : Int) :
    Int × Int → Int × Int := fun tb =>
  let tier := tb.1
  let balance := tb.2
  let minutes :=
    Int.fdiv (range_seconds log (start_of_day wk) (end_of_day (wk + 6))) 60
  if tier < N_LEAGUES ∧ minutes ≥ LEAGUE_PROMOTION_MINUTES.getD tier.toNat 0 then
    (tier + 1, balance + LEAGUE_PROMOTION_REWARD.getD (tier + 1).toNat 0)
  else if tier > 1 ∧ minutes < LEAGUE_SAFE_MINUTES.getD tier.toNat 0 then
    (tier - 1, balance - min balance (LEAGUE_DEMOTION_PENALTY.getD tier.toNat 0))
  else tb

theorem league_go_exit (fuel : Nat) (db : UserDB) (tier stored current : Int)
    (h : ¬stored < current) :
    league_go fuel db tier stored current = (db, tier, []) := by
  cases fuel with
  | zero => rfl
  | succ f => simp [league_go, h]

theorem apply_points_transaction_log (db : UserDB) (delta : Int)
    (reason : String) (alneg : Bool) :
    (apply_points_transaction db delta reason alneg).2.work_sessions =
      db.work_sessions := by
  simp only [apply_points_transaction]
  split_ifs <;> rfl

theorem deduct_points_up_to_log (db : UserDB) (desired : Int)
    (reason : String) :
    (deduct_points_up_to db desired reason).2.work_sessions =
      db.work_sessions := by
  simp only [deduct_points_up_to]
  split_ifs <;> rfl

theorem apply_points_transaction_success_balance (db : UserDB) (delta : Int)
    (reason : String) (h : 0 ≤ db.points_balance + delta) :
    (apply_points_transaction db delta reason false).2.points_balance =
      db.points_balance + delta := by
  simp only [apply_points_transaction]
  rw [if_neg]
  push_neg
  intro
  omega

theorem deduct_points_up_to_balance (db : UserDB) (desired : Int)
    (reason : String) (hb : 0 ≤ db.points_balance) (hd : 0 < desired) :
    (deduct_points_up_to db desired reason).2.points_balance =
      db.points_balance - min db.points_balance desired := by
  simp only [deduct_points_up_to]
  rw [if_neg (by omega)]
  split_ifs with h
  · dsimp only
    omega
  · rfl

theorem league_reward_pos (tier : Int) (h1 : 1 ≤ tier) (h2 : tier < 10) :
    0 < LEAGUE_PROMOTION_REWARD.getD (tier + 1).toNat 0 := by
  interval_cases tier <;> decide

theorem league_penalty_pos (tier : Int) (h1 : 1 < tier) (h2 : tier ≤ 10) :
    0 < LEAGUE_DEMOTION_PENALTY.getD tier.toNat 0 := by
  interval_cases tier <;> decide

end Timebot
namespace Timebot

/-- The rollover loop, started `k` whole weeks behind with enough fuel
and a nonnegative balance, computes exactly the left fold of the
spec-side week scoring over the completed weeks, oldest first. -/
theorem league_go_fold (current : Int) (k : Nat) :
    ∀ (fuel : Nat) (db : UserDB) (tier stored : Int),
      current - stored = 7 * k → k ≤ fuel → 0 ≤ db.points_balance →
      1 ≤ tier → tier ≤ N_LEAGUES →
      ((league_go fuel db tier stored current).2.1,
          (league_go fuel db tier stored current).1.points_balance) =
        List.foldl (fun tb wk => league_week_spec db.work_sessions wk tb)
          (tier, db.points_balance) (league_weeks k stored) := by
  induction k with
  | zero =>
    intro fuel db tier stored h0 _ _ _ _
    rw [league_go_exit fuel db tier stored current (by omega)]
    simp [league_weeks]
  | succ k ih =>
    intro fuel db tier stored hk hfuel hb h1 h10
    have hlt : stored < current := by omega
    obtain ⟨f, rfl⟩ : ∃ f, fuel = f + 1 := ⟨fuel - 1, by omega⟩
    rw [league_weeks, List.foldl_cons]
    simp only [league_go, if_pos hlt]
    split_ifs with hp hrw hd
    · dsimp only
      have hbal := apply_points_transaction_success_balance db
        (LEAGUE_PROMOTION_REWARD.getD (tier + 1).toNat 0) "league_promotion"
        (by omega)
      have hlog := apply_points_transaction_log db
        (LEAGUE_PROMOTION_REWARD.getD (tier + 1).toNat 0) "league_promotion" false
      have hih := ih f
        (apply_points_transaction db
          (LEAGUE_PROMOTION_REWARD.getD (tier + 1).toNat 0) "league_promotion"
          false).2
        (tier + 1) (stored + 7) (by omega) (by omega) (by rw [hbal]; omega)
        (by omega) (by omega)
      rw [hlog, hbal] at hih
      rw [hih]
      have hstep : league_week_spec db.work_sessions stored
          (tier, db.points_balance) =
          (tier + 1, db.points_balance +
            LEAGUE_PROMOTION_REWARD.getD (tier + 1).toNat 0) := by
        simp only [league_week_spec]
        rw [if_pos hp]
      rw [hstep]
    · exact absurd (league_reward_pos tier h1 (by simpa [N_LEAGUES] using hp.1)) hrw
    · dsimp only
      have hpen := league_penalty_pos tier hd.1 (by simpa [N_LEAGUES] using h10)
      have hbal := deduct_points_up_to_balance db
        (LEAGUE_DEMOTION_PENALTY.getD tier.toNat 0) "league_demotion" hb hpen
      have hlog := deduct_points_up_to_log db
        (LEAGUE_DEMOTION_PENALTY.getD tier.toNat 0) "league_demotion"
      have hih := ih f
        (deduct_points_up_to db
          (LEAGUE_DEMOTION_PENALTY.getD tier.toNat 0) "league_demotion").2
        (tier - 1) (stored + 7) (by omega) (by omega) (by rw [hbal]; omega)
        (by omega) (by omega)
      rw [hlog, hbal] at hih
      rw [hih]
      have hstep : league_week_spec db.work_sessions stored
          (tier, db.points_balance) =
          (tier - 1, db.points_balance -
            min db.points_balance (LEAGUE_DEMOTION_PENALTY.getD tier.toNat 0)) := by
        simp only [league_week_spec]
        rw [if_neg hp, if_pos hd]
      rw [hstep]
    · have hih := ih f db tier (stored + 7) (by omega) (by omega) hb h1 h10
      rw [hih]
      have hstep : league_week_spec db.work_sessions stored
          (tier, db.points_balance) = (tier, db.points_balance) := by
        simp only [league_week_spec]
        rw [if_neg hp, if_neg hd]
      rw [hstep]

end Timebot
namespace Timebot

theorem league_week_spec_bounds (log : List Session) (wk : Int)
    (tb : Int × Int) (h1 : 1 ≤ tb.1) (h2 : tb.1 ≤ N_LEAGUES) (hb : 0 ≤ tb.2) :
    1 ≤ (league_week_spec log wk tb).1 ∧
      (league_week_spec log wk tb).1 ≤ N_LEAGUES ∧
      0 ≤ (league_week_spec log wk tb).2 := by
  simp only [league_week_spec]
  split_ifs with hp hd
  · have hrew := league_reward_pos tb.1 h1 (by simpa [N_LEAGUES] using hp.1)
    exact ⟨by omega, by omega, by omega⟩
  · exact ⟨by omega, by omega, by dsimp only; omega⟩
  · exact ⟨h1, h2, hb⟩

theorem league_fold_bounds (log : List Session) (ws : List Int) :
    ∀ (tb : Int × Int), 1 ≤ tb.1 → tb.1 ≤ N_LEAGUES → 0 ≤ tb.2 →
      1 ≤ (List.foldl (fun tb wk => league_week_spec log wk tb) tb ws).1 ∧
        (List.foldl (fun tb wk => league_week_spec log wk tb) tb ws).1 ≤
          N_LEAGUES ∧
        0 ≤ (List.foldl (fun tb wk => league_week_spec log wk tb) tb ws).2 := by
  induction ws with
  | nil => exact fun tb h1 h2 hb => ⟨h1, h2, hb⟩
  | cons w rest ih =>
    intro tb h1 h2 hb
    obtain ⟨a, b, c⟩ := league_week_spec_bounds log w tb h1 h2 hb
    simpa using ih _ a b c

theorem league_weeks_le (k : Nat) :
    ∀ (stored wk : Int), wk ∈ league_weeks k stored →
      wk + 7 ≤ stored + 7 * k := by
  induction k with
  | zero =>
    intro stored wk h
    simp [league_weeks] at h
  | succ k ih =>
    intro stored wk h
    rw [league_weeks, List.mem_cons] at h
    rcases h with rfl | h
    · omega
    · have := ih (stored + 7) wk h
      omega

/-- C3: while the stored `league_week_start` sits `k ≥ 1` whole weeks
before the current week's Sunday anchor (the alignment the engine
maintains) and the balance is nonnegative, league rollover scores
exactly the completed weeks `a, a+7, …`, oldest first: per week the tier
is promoted by 1 with `promotion_reward[new tier]` credited iff
`tier < max tier ∧ minutes ≥ promotion_threshold[tier]`, otherwise
demoted by 1 with up to `demotion_penalty[old tier]` deducted iff
`tier > 1 ∧ minutes < safe_threshold[tier]`; afterwards the stored
anchor equals the current week's Sunday anchor, and every scored week
ends strictly before it — the in-progress week is never scored. -/
theorem evaluate_league_rollover_scores_completed_weeks (db : UserDB)
    (state : HabitState) (now : Int) (a : Int) (k : Nat)
    (ha : state.league_week_start = some a)
    (hk : week_start_sunday (dateOf now) - a = 7 * k) (hk1 : 1 ≤ k)
    (hb : 0 ≤ db.points_balance) :
    (evaluate_league_rollover db state now).1.habit.league_week_start =
        some (week_start_sunday (dateOf now)) ∧
      ((evaluate_league_rollover db state now).1.habit.league_tier,
          (evaluate_league_rollover db state now).1.points_balance) =
        List.foldl (fun tb wk => league_week_spec db.work_sessions wk tb)
          (clamp_tier state.league_tier, db.points_balance)
          (league_weeks k a) ∧
      ∀ wk ∈ league_weeks k a, wk + 7 ≤ week_start_sunday (dateOf now) := by
  have hlt : ¬a ≥ week_start_sunday (dateOf now) := by omega
  have hcl1 : 1 ≤ clamp_tier state.league_tier := le_max_left 1 _
  have hcl10 : clamp_tier state.league_tier ≤ N_LEAGUES := by
    simp only [clamp_tier, N_LEAGUES]
    omega
  have hfold := league_go_fold (week_start_sunday (dateOf now)) k
    ((week_start_sunday (dateOf now) - a).toNat) db
    (clamp_tier state.league_tier) a (by omega) (by omega) hb hcl1 hcl10
  have hbound := league_fold_bounds db.work_sessions (league_weeks k a)
    (clamp_tier state.league_tier, db.points_balance) hcl1 hcl10 hb
  simp only [evaluate_league_rollover, ha, league_loop]
  rw [if_neg hlt]
  refine ⟨rfl, ?_, fun wk hwk => by
    have := league_weeks_le k a wk hwk
    omega⟩
  have htier := congrArg Prod.fst hfold
  have hbalc := congrArg Prod.snd hfold
  dsimp only at htier hbalc
  obtain ⟨hb1, hb2, -⟩ := hbound
  have hcl : clamp_tier (List.foldl
      (fun tb wk => league_week_spec db.work_sessions wk tb)
      (clamp_tier state.league_tier, db.points_balance) (league_weeks k a)).1 =
      (List.foldl (fun tb wk => league_week_spec db.work_sessions wk tb)
        (clamp_tier state.league_tier, db.points_balance)
        (league_weeks k a)).1 := by
    simp only [clamp_tier, N_LEAGUES] at hb1 hb2 ⊢
    omega
  simp only [dbWriteHabit, save_habit_state]
  rw [htier, hbalc, hcl]

end Timebot
namespace Timebot

/-- The C3 fixture: anchor one week behind (day −8, a Sunday), tier 1,
and 300 logged minutes inside that completed week (day −5). -/
def dbC3 : UserDB :=
  { baseDB with
    work_sessions := [⟨-432000, 18000⟩]
    habit := { baseDB.habit with league_week_start := some (-8) } }

/-- Witness for C3: one completed week with 300 minutes promotes tier 1
to tier 2 and credits 25 points; the anchor lands on the current Sunday
(day −1). -/
theorem evaluate_league_rollover_scores_completed_weeks_witness :
    (evaluate_league_rollover dbC3 (row_to_habit_state dbC3.habit)
          (3 * 86400)).1.habit.league_week_start =
        some (week_start_sunday (dateOf (3 * 86400))) ∧
      ((evaluate_league_rollover dbC3 (row_to_habit_state dbC3.habit)
            (3 * 86400)).1.habit.league_tier,
          (evaluate_league_rollover dbC3 (row_to_habit_state dbC3.habit)
            (3 * 86400)).1.points_balance) =
        List.foldl (fun tb wk => league_week_spec dbC3.work_sessions wk tb)
          (clamp_tier (row_to_habit_state dbC3.habit).league_tier,
            dbC3.points_balance)
          (league_weeks 1 (-8)) ∧
      ∀ wk ∈ league_weeks 1 (-8),
        wk + 7 ≤ week_start_sunday (dateOf (3 * 86400)) :=
  evaluate_league_rollover_scores_completed_weeks dbC3
    (row_to_habit_state dbC3.habit) (3 * 86400) (-8) 1 rfl (by decide)
    (by decide) (by decide)

end Timebot
namespace Timebot

/-! ### Lemmas for the catch-up stability analysis (C1) -/

theorem normalize_of_mask_wf (m : List Char) (h : mask_wf m) :
    normalize_workdays_mask m = m := by
  obtain ⟨h1, h2, h3⟩ := h
  unfold normalize_workdays_mask
  rw [if_neg, if_neg h3]
  push_neg
  refine ⟨h1, ?_⟩
  rw [Ne, List.any_eq_true]
  rintro ⟨ch, hch, hbad⟩
  rcases h2 ch hch with h0 | h0 <;> simp [h0] at hbad

theorem normalize_workdays_mask_idem (m : List Char) :
    normalize_workdays_mask (normalize_workdays_mask m) =
      normalize_workdays_mask m :=
  normalize_of_mask_wf _ (mask_wf_normalize m)

/-- `state_changed` is set exactly when the loop body ran. -/
theorem replay_missed_changed_false (strict : Bool) (st : HabitState)
    (l : List Int) (h : (replay_missed strict st l).2.2 = false) : l = [] := by
  cases l with
  | nil => rfl
  | cons d rest =>
    exfalso
    simp only [replay_missed] at h
    split_ifs at h

/-- The counted date after a full left-to-right walk of `l`. -/
def lastCountedAfter (d : Option Int) (l : List Int) : Option Int :=
  match l.getLast? with
  | some x => some x
  | none => d

theorem lastCountedAfter_cons (d : Option Int) (x : Int) (l : List Int) :
    lastCountedAfter d (x :: l) = lastCountedAfter (some x) l := by
  cases l with
  | nil => rfl
  | cons y ys =>
    cases hg : (y :: ys).getLast? with
    | none => simp at hg
    | some z => simp [lastCountedAfter, List.getLast?_cons_cons, hg]

/-- A nonpositive streak only advances the counted date: no events, no
freeze or streak change. -/
theorem replay_missed_nonpos (strict : Bool) :
    ∀ (l : List Int) (st : HabitState), st.streak_days ≤ 0 →
      (replay_missed strict st l).1 =
          { st with streak_last_counted_date :=
              lastCountedAfter st.streak_last_counted_date l } ∧
        (replay_missed strict st l).2.1 = [] := by
  intro l
  induction l with
  | nil =>
    intro st h
    exact ⟨rfl, rfl⟩
  | cons d rest ih =>
    intro st h
    have hns : ¬st.streak_days > 0 := by omega
    simp only [replay_missed, if_neg (by simp [hns] : ¬(strict = true ∧ st.streak_days > 0)),
      if_neg (by simp [hns] : ¬(st.streak_days > 0 ∧ st.streak_freezes > 0)),
      if_neg hns]
    obtain ⟨h1, h2⟩ := ih { st with streak_last_counted_date := some d } h
    refine ⟨?_, h2⟩
    rw [h1, lastCountedAfter_cons]

/-- After the replay, either the counted date reached the end of the
missed list, or the streak was broken to 0 (a `break` in the loop). -/
theorem replay_missed_last_or_break (strict : Bool) :
    ∀ (l : List Int) (st : HabitState),
      (replay_missed strict st l).1.streak_last_counted_date =
          lastCountedAfter st.streak_last_counted_date l ∨
        (replay_missed strict st l).1.streak_days = 0 := by
  intro l
  induction l with
  | nil => intro st; exact Or.inl rfl
  | cons d rest ih =>
    intro st
    simp only [replay_missed]
    split_ifs with hstrict hfreeze hbreak
    · exact Or.inr rfl
    · rcases ih { st with
          streak_freezes := st.streak_freezes - 1
          streak_last_counted_date := some d } with h | h
      · left
        rw [lastCountedAfter_cons]
        exact h
      · exact Or.inr h
    · exact Or.inr rfl
    · rcases ih { st with streak_last_counted_date := some d } with h | h
      · left
        rw [lastCountedAfter_cons]
        exact h
      · exact Or.inr h

theorem required_workdays_go_getLast (db : UserDB) (state : HabitState) :
    ∀ (n : Nat) (cursor x : Int),
      (required_workdays_go db state n cursor).getLast? = some x →
      x ∈ required_workdays_go db state n cursor ∧
        ∀ d ∈ required_workdays_go db state n cursor, d ≤ x := by
  intro n
  induction n with
  | zero =>
    intro cursor x h
    simp [required_workdays_go] at h
  | succ n ih =>
    intro cursor x h
    by_cases hw : is_effective_workday db state cursor
    · rw [required_workdays_go, if_pos hw, List.singleton_append] at h ⊢
      by_cases hne : required_workdays_go db state n (cursor + 1) = []
      · rw [hne] at h ⊢
        simp at h
        subst h
        simp
      · have hgo : (required_workdays_go db state n (cursor + 1)).getLast? =
            some x := by
          obtain ⟨y, ys, hys⟩ := List.exists_cons_of_ne_nil hne
          rw [hys] at h
          rw [List.getLast?_cons_cons] at h
          rw [hys]
          exact h
        obtain ⟨hmem, hall⟩ := ih (cursor + 1) x hgo
        refine ⟨List.mem_cons_of_mem _ hmem, ?_⟩
        intro d hd
        rcases List.mem_cons.mp hd with hcur | hd
        · have := (mem_required_workdays_go db state n (cursor + 1) x).mp hmem
          omega
        · exact hall d hd
    · rw [required_workdays_go, if_neg hw, List.nil_append] at h ⊢
      exact ih (cursor + 1) x h

/-- Advancing the counted date to the last enumerated missed workday
leaves nothing more to enumerate. -/
theorem required_workdays_between_getLast (db : UserDB) (state : HabitState)
    (s e x : Int)
    (h : (required_workdays_between db state s e).getLast? = some x) :
    required_workdays_between db state (x + 1) e = [] := by
  unfold required_workdays_between at h
  obtain ⟨hmem, hall⟩ := required_workdays_go_getLast db state _ s x h
  by_contra hne
  obtain ⟨d, hd⟩ := List.exists_mem_of_ne_nil _ hne
  rw [mem_required_workdays_between] at hd
  obtain ⟨hd1, hd2, hd3⟩ := hd
  have hx := (mem_required_workdays_go db state _ s x).mp hmem
  have hdg : d ∈ required_workdays_go db state (e + 1 - s).toNat s :=
    (mem_required_workdays_go db state _ s d).mpr ⟨by omega, by omega, hd3⟩
  have := hall d hdg
  omega

theorem is_effective_workday_congr (db1 db2 : UserDB) (st1 st2 : HabitState)
    (ho : db1.day_overrides = db2.day_overrides)
    (hm : normalize_workdays_mask st1.workdays_mask =
      normalize_workdays_mask st2.workdays_mask) :
    ∀ d, is_effective_workday db1 st1 d = is_effective_workday db2 st2 d := by
  intro d
  simp [is_effective_workday, get_day_override, ho, is_regular_workday, hm]

theorem required_workdays_between_congr (db1 db2 : UserDB)
    (st1 st2 : HabitState)
    (h : ∀ d, is_effective_workday db1 st1 d = is_effective_workday db2 st2 d) :
    ∀ s e, required_workdays_between db1 st1 s e =
      required_workdays_between db2 st2 s e := by
  have hgo : ∀ (n : Nat) (cursor : Int),
      required_workdays_go db1 st1 n cursor =
        required_workdays_go db2 st2 n cursor := by
    intro n
    induction n with
    | zero => intro cursor; rfl
    | succ n ih =>
      intro cursor
      simp only [required_workdays_go, h cursor, ih]
  intro s e
  unfold required_workdays_between
  exact hgo _ s

end Timebot
namespace Timebot

theorem fail_streak_challenge_fields (db : UserDB) :
    (fail_streak_challenge db).day_overrides = db.day_overrides ∧
      (fail_streak_challenge db).work_sessions = db.work_sessions ∧
      (fail_streak_challenge db).points_balance = db.points_balance ∧
      (fail_streak_challenge db).point_transactions = db.point_transactions := by
  simp only [fail_streak_challenge]
  split
  · split_ifs <;> exact ⟨rfl, rfl, rfl, rfl⟩
  · exact ⟨rfl, rfl, rfl, rfl⟩

theorem challenge_catchup_fields (db : UserDB) (st : HabitState) (today : Int) :
    (challenge_catchup db st today).1.day_overrides = db.day_overrides ∧
      (challenge_catchup db st today).1.work_sessions = db.work_sessions ∧
      (challenge_catchup db st today).1.points_balance = db.points_balance ∧
      (challenge_catchup db st today).1.point_transactions =
        db.point_transactions := by
  simp only [challenge_catchup]
  split
  · exact ⟨rfl, rfl, rfl, rfl⟩
  · split_ifs
    · exact ⟨rfl, rfl, rfl, rfl⟩
    · exact fail_streak_challenge_fields db

theorem discipline_streak_replay_fields (db : UserDB) (st : HabitState)
    (b : Bool) (today : Int) :
    (discipline_streak_replay db st b today).1.day_overrides =
        db.day_overrides ∧
      (discipline_streak_replay db st b today).1.work_sessions =
        db.work_sessions := by
  simp only [discipline_streak_replay]
  split
  · exact ⟨rfl, rfl⟩
  · split_ifs <;> exact ⟨rfl, rfl⟩

/-- After any league rollover, the stored anchor is a date at or past
the current week's Sunday anchor. -/
theorem evaluate_league_rollover_anchor (db : UserDB) (state : HabitState)
    (now : Int) (hs : state.league_week_start = db.habit.league_week_start) :
    ∃ x, (evaluate_league_rollover db state now).1.habit.league_week_start =
        some x ∧ week_start_sunday (dateOf now) ≤ x := by
  simp only [evaluate_league_rollover]
  cases hls : state.league_week_start with
  | none => exact ⟨week_start_sunday (dateOf now), rfl, le_refl _⟩
  | some stored =>
    dsimp only
    split_ifs with h
    · refine ⟨stored, ?_, h⟩
      rw [← hs, hls]
    · exact ⟨week_start_sunday (dateOf now), rfl, le_refl _⟩

/-- Saving is idempotent across a read-back: re-clamping an
already-saved row changes nothing. -/
theorem save_row_save (s : HabitState) :
    save_habit_state (row_to_habit_state (save_habit_state s)) =
      save_habit_state s := by
  unfold save_habit_state row_to_habit_state
  simp only [normalize_workdays_mask_idem, clamp_tier, N_LEAGUES,
    MAX_STREAK_FREEZES, HabitState.mk.injEq, and_true, true_and]
  omega

theorem save_habit_state_set_last (s : HabitState) (x : Option Int) :
    save_habit_state { s with streak_last_counted_date := x } =
      { save_habit_state s with streak_last_counted_date := x } := rfl

end Timebot
namespace Timebot

theorem replay_missed_static_fields (strict : Bool) :
    ∀ (l : List Int) (st : HabitState),
      (replay_missed strict st l).1.league_week_start = st.league_week_start ∧
        (replay_missed strict st l).1.workdays_mask = st.workdays_mask := by
  intro l
  induction l with
  | nil => exact fun st => ⟨rfl, rfl⟩
  | cons d rest ih =>
    intro st
    simp only [replay_missed]
    split_ifs
    · exact ⟨rfl, rfl⟩
    · exact ih { st with
        streak_freezes := st.streak_freezes - 1
        streak_last_counted_date := some d }
    · exact ⟨rfl, rfl⟩
    · exact ih { st with streak_last_counted_date := some d }

theorem get_active_streak_challenge_congr (db1 db2 : UserDB)
    (h : db1.challenge = db2.challenge) :
    get_active_streak_challenge db1 = get_active_streak_challenge db2 := by
  unfold get_active_streak_challenge
  rw [h]

theorem get_active_streak_challenge_fail (db : UserDB) :
    get_active_streak_challenge (fail_streak_challenge db) = none := by
  cases hc : db.challenge with
  | none => simp [fail_streak_challenge, get_active_streak_challenge, hc]
  | some c =>
    by_cases hs : c.status = "active"
    · simp [fail_streak_challenge, get_active_streak_challenge, hc, hs]
    · simp [fail_streak_challenge, get_active_streak_challenge, hc, hs]

theorem get_active_streak_challenge_inv (db : UserDB) (c : StreakChallenge)
    (h : get_active_streak_challenge db = some c) :
    db.challenge = some c ∧ c.status = "active" := by
  unfold get_active_streak_challenge at h
  cases hc : db.challenge with
  | none => rw [hc] at h; simp at h
  | some c' =>
    rw [hc] at h
    dsimp only at h
    split_ifs at h with hs
    have heq := Option.some.inj h
    subst heq
    exact ⟨rfl, hs⟩

theorem challenge_catchup_none (db : UserDB) (st : HabitState) (today : Int)
    (h : get_active_streak_challenge db = none) :
    challenge_catchup db st today = (db, [], false) := by
  simp [challenge_catchup, h]

theorem challenge_catchup_survive (db : UserDB) (st : HabitState)
    (today : Int) (c : StreakChallenge)
    (h : get_active_streak_challenge db = some c)
    (hm : required_workdays_between db st
      (c.last_counted_date.getD (today - 1) + 1) (today - 1) = []) :
    challenge_catchup db st today = (db, [], true) := by
  simp [challenge_catchup, h, hm]

theorem challenge_catchup_fail_eq (db : UserDB) (st : HabitState)
    (today : Int) (c : StreakChallenge)
    (h : get_active_streak_challenge db = some c)
    (hm : required_workdays_between db st
      (c.last_counted_date.getD (today - 1) + 1) (today - 1) ≠ []) :
    challenge_catchup db st today =
      (fail_streak_challenge db, [Event.challengeFailed c.wager_points],
        false) := by
  simp only [challenge_catchup, h]
  rw [if_neg hm]

theorem discipline_streak_replay_none (db : UserDB) (st : HabitState)
    (b : Bool) (today : Int) (h : st.streak_last_counted_date = none) :
    discipline_streak_replay db st b today = (db, []) := by
  simp [discipline_streak_replay, h]

theorem discipline_streak_replay_some (db : UserDB) (st : HabitState)
    (b : Bool) (today l : Int) (h : st.streak_last_counted_date = some l) :
    discipline_streak_replay db st b today =
      (if (replay_missed b st
            (required_workdays_between db st (l + 1) (today - 1))).2.2 then
          dbWriteHabit db (replay_missed b st
            (required_workdays_between db st (l + 1) (today - 1))).1
        else db,
        (replay_missed b st
          (required_workdays_between db st (l + 1) (today - 1))).2.1) := by
  simp [discipline_streak_replay, h]

end Timebot
namespace Timebot

/-- A second catch-up run over a database satisfying the three
stability facts a first run leaves behind — league anchor caught up, no
challenge-failing missed day, and a streak part that is either fully
caught up or silently advanceable — emits no events and preserves
streak, freezes, tier and anchor. -/
theorem evaluate_discipline_stable (s1 : UserDB) (now : Int)
    (ha : ∃ x, s1.habit.league_week_start = some x ∧
      week_start_sunday (dateOf now) ≤ x)
    (hc : get_active_streak_challenge s1 = none ∨
      ∃ c, get_active_streak_challenge s1 = some c ∧
        required_workdays_between s1 (row_to_habit_state s1.habit)
          (c.last_counted_date.getD (dateOf now - 1) + 1) (dateOf now - 1) = [])
    (hs : (row_to_habit_state s1.habit).streak_last_counted_date = none ∨
      ∃ l1, (row_to_habit_state s1.habit).streak_last_counted_date = some l1 ∧
        (required_workdays_between s1 (row_to_habit_state s1.habit)
            (l1 + 1) (dateOf now - 1) = [] ∨
          ((row_to_habit_state s1.habit).streak_days ≤ 0 ∧
            ∃ s, s1.habit = save_habit_state s))) :
    (evaluate_discipline s1 now).2 = [] ∧
      (evaluate_discipline s1 now).1.habit.streak_days =
        s1.habit.streak_days ∧
      (evaluate_discipline s1 now).1.habit.streak_freezes =
        s1.habit.streak_freezes ∧
      (evaluate_discipline s1 now).1.habit.league_tier =
        s1.habit.league_tier ∧
      (evaluate_discipline s1 now).1.habit.league_week_start =
        s1.habit.league_week_start := by
  obtain ⟨x, hx, hxle⟩ := ha
  have hlr2 : evaluate_league_rollover s1 (row_to_habit_state s1.habit) now =
      (s1, []) := by
    refine evaluate_league_rollover_caught_up s1 _ now x ?_ hxle
    show s1.habit.league_week_start = some x
    exact hx
  have hcc2 : ∃ b, challenge_catchup s1 (row_to_habit_state s1.habit)
      (dateOf now) = (s1, [], b) := by
    rcases hc with h | ⟨c, h, hm⟩
    · exact ⟨false, challenge_catchup_none _ _ _ h⟩
    · exact ⟨true, challenge_catchup_survive _ _ _ c h hm⟩
  obtain ⟨b, hcc2⟩ := hcc2
  have hsp2 : ∃ dbf, discipline_streak_replay s1 (row_to_habit_state s1.habit)
      b (dateOf now) = (dbf, []) ∧
      dbf.habit.streak_days = s1.habit.streak_days ∧
      dbf.habit.streak_freezes = s1.habit.streak_freezes ∧
      dbf.habit.league_tier = s1.habit.league_tier ∧
      dbf.habit.league_week_start = s1.habit.league_week_start := by
    rcases hs with h | ⟨l1, h, hcase⟩
    · exact ⟨s1, discipline_streak_replay_none _ _ _ _ h, rfl, rfl, rfl, rfl⟩
    · rcases hcase with hm | ⟨hnp, s, hsave⟩
      · refine ⟨s1, ?_, rfl, rfl, rfl, rfl⟩
        rw [discipline_streak_replay_some s1 _ b _ l1 h, hm]
        rfl
      · rw [discipline_streak_replay_some s1 _ b _ l1 h]
        obtain ⟨h1, h2⟩ := replay_missed_nonpos b
          (required_workdays_between s1 (row_to_habit_state s1.habit)
            (l1 + 1) (dateOf now - 1))
          (row_to_habit_state s1.habit) hnp
        by_cases hch : (replay_missed b (row_to_habit_state s1.habit)
            (required_workdays_between s1 (row_to_habit_state s1.habit)
              (l1 + 1) (dateOf now - 1))).2.2
        · refine ⟨dbWriteHabit s1 (replay_missed b (row_to_habit_state s1.habit)
            (required_workdays_between s1 (row_to_habit_state s1.habit)
              (l1 + 1) (dateOf now - 1))).1, ?_, ?_, ?_, ?_, ?_⟩
          · rw [if_pos hch, h2]
          all_goals
            have hkey : ∀ L : Option Int,
                save_habit_state { row_to_habit_state s1.habit with
                  streak_last_counted_date := L } =
                { s1.habit with streak_last_counted_date := L } := by
              intro L
              rw [save_habit_state_set_last]
              have hbase : save_habit_state (row_to_habit_state s1.habit) =
                  s1.habit := by
                rw [hsave, save_row_save]
              rw [hbase]
            simp only [dbWriteHabit, h1, hkey]
        · exact ⟨s1, by rw [if_neg hch, h2], rfl, rfl, rfl, rfl⟩
  obtain ⟨dbf, hspE, hf1, hf2, hf3, hf4⟩ := hsp2
  have hall : evaluate_discipline s1 now = (dbf, []) := by
    simp only [evaluate_discipline, hlr2, hcc2, hspE, List.nil_append,
      List.append_nil]
  rw [hall]
  exact ⟨rfl, hf1, hf2, hf3, hf4⟩

end Timebot
namespace Timebot

/-- The catch-up pipeline, written out (league rollover, challenge
check, streak replay). -/
theorem evaluate_discipline_unfold (db : UserDB) (now : Int) :
    evaluate_discipline db now =
      ((discipline_streak_replay
          (challenge_catchup
            (evaluate_league_rollover db (row_to_habit_state db.habit) now).1
            (row_to_habit_state
              (evaluate_league_rollover db (row_to_habit_state db.habit) now).1.habit)
            (dateOf now)).1
          (row_to_habit_state
            (evaluate_league_rollover db (row_to_habit_state db.habit) now).1.habit)
          (challenge_catchup
            (evaluate_league_rollover db (row_to_habit_state db.habit) now).1
            (row_to_habit_state
              (evaluate_league_rollover db (row_to_habit_state db.habit) now).1.habit)
            (dateOf now)).2.2
          (dateOf now)).1,
        (evaluate_league_rollover db (row_to_habit_state db.habit) now).2 ++
          (challenge_catchup
            (evaluate_league_rollover db (row_to_habit_state db.habit) now).1
            (row_to_habit_state
              (evaluate_league_rollover db (row_to_habit_state db.habit) now).1.habit)
            (dateOf now)).2.1 ++
          (discipline_streak_replay
            (challenge_catchup
              (evaluate_league_rollover db (row_to_habit_state db.habit) now).1
              (row_to_habit_state
                (evaluate_league_rollover db (row_to_habit_state db.habit) now).1.habit)
              (dateOf now)).1
            (row_to_habit_state
              (evaluate_league_rollover db (row_to_habit_state db.habit) now).1.habit)
            (challenge_catchup
              (evaluate_league_rollover db (row_to_habit_state db.habit) now).1
              (row_to_habit_state
                (evaluate_league_rollover db (row_to_habit_state db.habit) now).1.habit)
              (dateOf now)).2.2
            (dateOf now)).2) := rfl

end Timebot
namespace Timebot

/-- C1 counterexample fixture: Mon–Fri mask, streak 1, no freezes, last
counted Monday (day 0), league caught up, no sessions, now Friday. -/
def dbC1 : UserDB :=
  { baseDB with
    habit :=
      { streak_days := 1
        streak_last_counted_date := some 0
        streak_freezes := 0
        league_tier := 1
        league_week_start := some (-1)
        workdays_mask := DEFAULT_WORKDAYS_MASK } }

/-- C1 counterexample: the first catch-up run breaks the streak on
Tuesday (day 1) and stops; the second run emits no events but silently
advances `streak_last_counted_date` from Tuesday (day 1) to Thursday
(day 3) — so the second run does *not* leave
`streak_last_counted_date` exactly as the first run left it, refuting
the claim as stated. -/
theorem catchup_idempotence_counterexample :
    (evaluate_discipline dbC1 (4 * 86400)).1.habit.streak_last_counted_date =
        some 1 ∧
      (evaluate_discipline (evaluate_discipline dbC1 (4 * 86400)).1
          (4 * 86400)).2 = [] ∧
      (evaluate_discipline (evaluate_discipline dbC1 (4 * 86400)).1
          (4 * 86400)).1.habit.streak_last_counted_date = some 3 ∧
      (evaluate_discipline (evaluate_discipline dbC1 (4 * 86400)).1
            (4 * 86400)).1.habit.streak_last_counted_date ≠
        (evaluate_discipline dbC1 (4 * 86400)).1.habit.streak_last_counted_date := by
  decide

end Timebot
namespace Timebot

/-- C1 (amended): running catch-up twice with no new activity in
between, the second call returns no events (no duplicates) and leaves
`streak_days`, `streak_freezes`, `league_tier` and `league_week_start`
exactly as the first call left them.  (`streak_last_counted_date` is
exempted: as the counterexample shows, when the first call breaks the
streak mid-history, the second call silently advances the counted date
over the remaining missed workdays.) -/
theorem catchup_second_run_stable (db : UserDB) (now : Int) :
    (evaluate_discipline (evaluate_discipline db now).1 now).2 = [] ∧
      (evaluate_discipline (evaluate_discipline db now).1 now).1.habit.streak_days =
        (evaluate_discipline db now).1.habit.streak_days ∧
      (evaluate_discipline (evaluate_discipline db now).1 now).1.habit.streak_freezes =
        (evaluate_discipline db now).1.habit.streak_freezes ∧
      (evaluate_discipline (evaluate_discipline db now).1 now).1.habit.league_tier =
        (evaluate_discipline db now).1.habit.league_tier ∧
      (evaluate_discipline (evaluate_discipline db now).1 now).1.habit.league_week_start =
        (evaluate_discipline db now).1.habit.league_week_start := by
  have hLRanchor0 := evaluate_league_rollover_anchor db
    (row_to_habit_state db.habit) now rfl
  rw [evaluate_discipline_unfold db now]
  dsimp only
  generalize hLR : evaluate_league_rollover db (row_to_habit_state db.habit) now = LR at *
  generalize hST : row_to_habit_state LR.1.habit = ST at *
  generalize hCC : challenge_catchup LR.1 ST (dateOf now) = CC at *
  generalize hSP : discipline_streak_replay CC.1 ST CC.2.2 (dateOf now) = SP at *
  -- basic preservation facts
  have hCChab : CC.1.habit = LR.1.habit := by
    rw [← hCC]; exact challenge_catchup_habit _ _ _
  have hCCov : CC.1.day_overrides = LR.1.day_overrides := by
    rw [← hCC]; exact (challenge_catchup_fields _ _ _).1
  have hSPov : SP.1.day_overrides = CC.1.day_overrides := by
    rw [← hSP]; exact (discipline_streak_replay_fields _ _ _ _).1
  have hSPch : SP.1.challenge = CC.1.challenge := by
    rw [← hSP]; exact (discipline_streak_replay_other_fields _ _ _ _).1
  have hSTmask : ST.workdays_mask = normalize_workdays_mask LR.1.habit.workdays_mask := by
    rw [← hST]
    rfl
  -- the two shapes the first run's streak part can leave behind
  have hshape : (SP.1.habit = LR.1.habit ∧
        ∀ l0, ST.streak_last_counted_date = some l0 →
          required_workdays_between CC.1 ST (l0 + 1) (dateOf now - 1) = []) ∨
      ∃ l0, ST.streak_last_counted_date = some l0 ∧
        SP.1.habit = save_habit_state (replay_missed CC.2.2 ST
          (required_workdays_between CC.1 ST (l0 + 1) (dateOf now - 1))).1 := by
    cases hsl : ST.streak_last_counted_date with
    | none =>
      left
      refine ⟨?_, fun l0 hl0 => Option.noConfusion hl0⟩
      rw [← hSP, discipline_streak_replay_none _ _ _ _ hsl]
      exact hCChab
    | some l0 =>
      by_cases hch : (replay_missed CC.2.2 ST (required_workdays_between CC.1
          ST (l0 + 1) (dateOf now - 1))).2.2 = true
      · right
        refine ⟨l0, rfl, ?_⟩
        rw [← hSP, discipline_streak_replay_some _ _ _ _ l0 hsl]
        dsimp only
        rw [if_pos hch]
        rfl
      · left
        have hnil : required_workdays_between CC.1 ST (l0 + 1)
            (dateOf now - 1) = [] :=
          replay_missed_changed_false _ _ _ (Bool.eq_false_iff.mpr hch)
        constructor
        · rw [← hSP, discipline_streak_replay_some _ _ _ _ l0 hsl, hnil]
          simp only [replay_missed]
          rw [if_neg (by simp)]
          exact hCChab
        · intro l0' hl0'
          injection hl0' with h
          subst h
          exact hnil
  -- mask stability: the second run normalizes to the same mask
  have hmask : normalize_workdays_mask
      (row_to_habit_state SP.1.habit).workdays_mask =
      normalize_workdays_mask ST.workdays_mask := by
    rcases hshape with ⟨hEq, -⟩ | ⟨l0, hsl, hsaveEq⟩
    · rw [hEq]
      show normalize_workdays_mask (normalize_workdays_mask LR.1.habit.workdays_mask) =
        normalize_workdays_mask ST.workdays_mask
      rw [normalize_workdays_mask_idem, hSTmask, normalize_workdays_mask_idem]
    · rw [hsaveEq]
      show normalize_workdays_mask (normalize_workdays_mask
        (normalize_workdays_mask (replay_missed CC.2.2 ST
          (required_workdays_between CC.1 ST (l0 + 1) (dateOf now - 1))).1.workdays_mask)) =
        normalize_workdays_mask ST.workdays_mask
      rw [(replay_missed_static_fields CC.2.2 _ ST).2,
        normalize_workdays_mask_idem, normalize_workdays_mask_idem]
  have hcongrCC : ∀ a b, required_workdays_between SP.1
      (row_to_habit_state SP.1.habit) a b =
      required_workdays_between CC.1 ST a b := fun a b =>
    required_workdays_between_congr _ _ _ _
      (is_effective_workday_congr _ _ _ _ (by rw [hSPov]) hmask) a b
  have hcongrLR : ∀ a b, required_workdays_between CC.1 ST a b =
      required_workdays_between LR.1 ST a b := fun a b =>
    required_workdays_between_congr _ _ _ _
      (is_effective_workday_congr _ _ _ _ hCCov rfl) a b
  -- anchor of the second run's input
  have hSPanchor : SP.1.habit.league_week_start = LR.1.habit.league_week_start := by
    rcases hshape with ⟨hEq, -⟩ | ⟨l0, hsl, hsaveEq⟩
    · rw [hEq]
    · rw [hsaveEq]
      show (replay_missed CC.2.2 ST (required_workdays_between CC.1 ST
        (l0 + 1) (dateOf now - 1))).1.league_week_start = LR.1.habit.league_week_start
      rw [(replay_missed_static_fields CC.2.2 _ ST).1, ← hST]
      rfl
  have hAnchor : ∃ x, SP.1.habit.league_week_start = some x ∧
      week_start_sunday (dateOf now) ≤ x := by
    obtain ⟨x, hx, hle⟩ := hLRanchor0
    exact ⟨x, by rw [hSPanchor]; exact hx, hle⟩
  -- challenge stability for the second run
  have hChyp : get_active_streak_challenge SP.1 = none ∨
      ∃ c, get_active_streak_challenge SP.1 = some c ∧
        required_workdays_between SP.1 (row_to_habit_state SP.1.habit)
          (c.last_counted_date.getD (dateOf now - 1) + 1) (dateOf now - 1) = [] := by
    have hga0 : get_active_streak_challenge SP.1 =
        get_active_streak_challenge CC.1 :=
      get_active_streak_challenge_congr _ _ hSPch
    cases hga : get_active_streak_challenge LR.1 with
    | none =>
      left
      have : CC = (LR.1, [], false) := by
        rw [← hCC]; exact challenge_catchup_none _ _ _ hga
      rw [hga0, this]
      exact hga
    | some c =>
      by_cases hm : required_workdays_between LR.1 ST
          (c.last_counted_date.getD (dateOf now - 1) + 1) (dateOf now - 1) = []
      · right
        have hCCe : CC = (LR.1, [], true) := by
          rw [← hCC]; exact challenge_catchup_survive _ _ _ c hga hm
        refine ⟨c, ?_, ?_⟩
        · rw [hga0, hCCe]
          exact hga
        · rw [hcongrCC, hcongrLR]
          exact hm
      · left
        have hCCe : CC = (fail_streak_challenge LR.1,
            [Event.challengeFailed c.wager_points], false) := by
          rw [← hCC]; exact challenge_catchup_fail_eq _ _ _ c hga hm
        rw [hga0, hCCe]
        exact get_active_streak_challenge_fail LR.1
  -- streak stability for the second run
  have hShyp : (row_to_habit_state SP.1.habit).streak_last_counted_date = none ∨
      ∃ l1, (row_to_habit_state SP.1.habit).streak_last_counted_date = some l1 ∧
        (required_workdays_between SP.1 (row_to_habit_state SP.1.habit)
            (l1 + 1) (dateOf now - 1) = [] ∨
          ((row_to_habit_state SP.1.habit).streak_days ≤ 0 ∧
            ∃ s, SP.1.habit = save_habit_state s)) := by
    rcases hshape with ⟨hEq, hall⟩ | ⟨l0, hsl, hsaveEq⟩
    · have hview : row_to_habit_state SP.1.habit = ST := by
        rw [hEq, hST]
      cases hsl : ST.streak_last_counted_date with
      | none =>
        left
        rw [hview]
        exact hsl
      | some l0 =>
        right
        refine ⟨l0, by rw [hview]; exact hsl, Or.inl ?_⟩
        rw [hcongrCC]
        exact hall l0 hsl
    · rcases replay_missed_last_or_break CC.2.2
          (required_workdays_between CC.1 ST (l0 + 1) (dateOf now - 1)) ST
        with hL | hZ
      · -- the first run consumed the whole missed list
        cases hg : (required_workdays_between CC.1 ST (l0 + 1)
            (dateOf now - 1)).getLast? with
        | none =>
          -- empty missed list: the saved counted date is still l0
          have hnil : required_workdays_between CC.1 ST (l0 + 1)
              (dateOf now - 1) = [] := by
            cases hc : required_workdays_between CC.1 ST (l0 + 1)
                (dateOf now - 1) with
            | nil => rfl
            | cons y ys =>
              rw [hc] at hg
              exact absurd hg (by simp [List.getLast?])
          right
          refine ⟨l0, ?_, Or.inl ?_⟩
          · rw [hsaveEq]
            show (replay_missed CC.2.2 ST (required_workdays_between CC.1 ST
              (l0 + 1) (dateOf now - 1))).1.streak_last_counted_date = some l0
            rw [hL, hsl, hnil]
            rfl
          · rw [hcongrCC]
            exact hnil
        | some g =>
          right
          refine ⟨g, ?_, Or.inl ?_⟩
          · rw [hsaveEq]
            show (replay_missed CC.2.2 ST (required_workdays_between CC.1 ST
              (l0 + 1) (dateOf now - 1))).1.streak_last_counted_date = some g
            rw [hL]
            unfold lastCountedAfter
            rw [hg]
          · rw [hcongrCC]
            exact required_workdays_between_getLast CC.1 ST (l0 + 1)
              (dateOf now - 1) g hg
      · -- the first run broke the streak to 0
        cases hv : (row_to_habit_state SP.1.habit).streak_last_counted_date with
        | none => exact Or.inl rfl
        | some l1 =>
          right
          refine ⟨l1, rfl, Or.inr ⟨?_, _, hsaveEq⟩⟩
          show SP.1.habit.streak_days ≤ 0
          rw [hsaveEq]
          show max 0 (replay_missed CC.2.2 ST (required_workdays_between CC.1
            ST (l0 + 1) (dateOf now - 1))).1.streak_days ≤ 0
          rw [hZ]
          simp
  exact evaluate_discipline_stable SP.1 now hAnchor hChyp hShyp

end Timebot
namespace Timebot

theorem required_workdays_between_empty_of_lt (db : UserDB)
    (st : HabitState) (lo hi : Int) (h : hi < lo) :
    required_workdays_between db st lo hi = [] := by
  unfold required_workdays_between
  rw [Int.toNat_of_nonpos (by omega)]
  rfl

theorem apply_points_transaction_challenge (db : UserDB) (delta : Int)
    (reason : String) (alneg : Bool) :
    ((apply_points_transaction db delta reason alneg).2).challenge =
      db.challenge := by
  simp only [apply_points_transaction]
  split_ifs <;> rfl

theorem get_active_streak_challenge_none_of_inactive (db : UserDB)
    (c : StreakChallenge) (hc : db.challenge = some c)
    (hs : c.status ≠ "active") :
    get_active_streak_challenge db = none := by
  simp [get_active_streak_challenge, hc, hs]

theorem complete_streak_challenge_active (db : UserDB) (c : StreakChallenge)
    (payout : Int) (hc : db.challenge = some c) (hact : c.status = "active") :
    complete_streak_challenge db payout =
      (true, (apply_points_transaction
        { db with challenge := some { c with status := "completed" } }
        payout "streak_challenge_reward").2) := by
  simp only [complete_streak_challenge, hc]
  rw [if_pos hact]

/-- When the streak was already counted today and is positive, the
streak-counting step of `register_activity_day` is the identity. -/
theorem register_streak_state_same_day (db : UserDB) (st : HabitState)
    (today : Int) (h1 : ¬ st.streak_days ≤ 0)
    (h2 : st.streak_last_counted_date = some today) :
    register_streak_state db st today = st := by
  unfold register_streak_state
  rw [if_neg h1, h2]
  simp

/-- When the league anchor is caught up, the streak was counted today
and any active challenge was counted today, the opening catch-up call
of `register_activity_day` changes nothing and reports nothing. -/
theorem evaluate_discipline_noop (db : UserDB) (now : Int)
    (ha : ∃ x, db.habit.league_week_start = some x ∧
      week_start_sunday (dateOf now) ≤ x)
    (hl : db.habit.streak_last_counted_date = some (dateOf now))
    (hc : ∀ c, get_active_streak_challenge db = some c →
      c.last_counted_date = some (dateOf now)) :
    evaluate_discipline db now = (db, []) := by
  obtain ⟨x, hx, hxle⟩ := ha
  have hx' : (row_to_habit_state db.habit).league_week_start = some x := hx
  have hLR := evaluate_league_rollover_caught_up db
    (row_to_habit_state db.habit) now x hx' hxle
  have hl' : (row_to_habit_state db.habit).streak_last_counted_date =
      some (dateOf now) := hl
  have hSP : ∀ b, discipline_streak_replay db (row_to_habit_state db.habit)
      b (dateOf now) = (db, []) := by
    intro b
    rw [discipline_streak_replay_some db (row_to_habit_state db.habit) b
        (dateOf now) (dateOf now) hl',
      required_workdays_between_empty_of_lt db (row_to_habit_state db.habit)
        (dateOf now + 1) (dateOf now - 1) (by omega)]
    rfl
  rw [evaluate_discipline_unfold db now, hLR]
  dsimp only
  cases hg : get_active_streak_challenge db with
  | none =>
    rw [challenge_catchup_none db (row_to_habit_state db.habit)
      (dateOf now) hg]
    dsimp only
    rw [hSP false]
    rfl
  | some c =>
    have hcm := hc c hg
    rw [challenge_catchup_survive db (row_to_habit_state db.habit)
      (dateOf now) c hg
      (by
        rw [hcm, Option.getD_some]
        exact required_workdays_between_empty_of_lt db
          (row_to_habit_state db.habit) (dateOf now + 1) (dateOf now - 1)
          (by omega))]
    dsimp only
    rw [hSP true]
    rfl

end Timebot
namespace Timebot

/-- C10 counterexample fixture: streak 0 but already counted today
(Monday, day 0), league caught up, no challenge. -/
def dbC10 : UserDB :=
  { baseDB with
    habit :=
      { streak_days := 0
        streak_last_counted_date := some 0
        streak_freezes := 0
        league_tier := 1
        league_week_start := some (-1)
        workdays_mask := DEFAULT_WORKDAYS_MASK } }

/-- C10 counterexample: a user whose `streak_last_counted_date` already
equals today but whose `streak_days` is 0 (and no challenge is active)
has `streak_days` bumped from 0 to 1 by a further same-day call to
`register_activity_day` — the `streak_days <= 0` restart branch runs
before the same-day check, so the claim's "leaves streak_days
unchanged" fails as stated. -/
theorem same_day_register_counterexample :
    (row_to_habit_state dbC10.habit).streak_last_counted_date =
        some (dateOf 0) ∧
      dbC10.challenge = none ∧
      dbC10.habit.streak_days = 0 ∧
      (register_activity_day dbC10 0).1.habit.streak_days = 1 := by
  decide

/-- C10 witness fixture: an active 7-day challenge already counted
today. -/
def cC10 : StreakChallenge :=
  { days_target := 7
    days_done := 3
    wager_points := 100
    status := "active"
    start_date := some (-3)
    last_counted_date := some 0 }

/-- C10 witness fixture: positive streak counted today, league caught
up, the challenge `cC10` active. -/
def dbC10w : UserDB :=
  { baseDB with
    habit :=
      { streak_days := 4
        streak_last_counted_date := some 0
        streak_freezes := 1
        league_tier := 2
        league_week_start := some (-1)
        workdays_mask := DEFAULT_WORKDAYS_MASK }
    challenge := some cC10 }

/-- C10 (amended): for a user with a *positive* streak whose
`streak_last_counted_date` already equals today, whose league anchor is
caught up, and whose active challenge (if any) was also already counted
today, a further call to `register_activity_day` on the same day leaves
`streak_days` unchanged and leaves the `days_done` of any challenge
that is still active afterwards unchanged — repeated confirmed sessions
on one calendar day advance the streak and an active challenge by at
most one day each.  (The positivity hypothesis is required: the
counterexample shows a zero streak counted today is restarted to 1.) -/
theorem register_activity_day_same_day_stable (db : UserDB) (now : Int)
    (ha : ∃ x, db.habit.league_week_start = some x ∧
      week_start_sunday (dateOf now) ≤ x)
    (hl : db.habit.streak_last_counted_date = some (dateOf now))
    (hs : 1 ≤ db.habit.streak_days)
    (hc : ∀ c, get_active_streak_challenge db = some c →
      c.last_counted_date = some (dateOf now)) :
    (register_activity_day db now).1.habit.streak_days =
        db.habit.streak_days ∧
      ∀ c c', get_active_streak_challenge db = some c →
        get_active_streak_challenge (register_activity_day db now).1 =
          some c' →
        c'.days_done = c.days_done := by
  have hED : evaluate_discipline db now = (db, []) :=
    evaluate_discipline_noop db now ha hl hc
  have hkey : register_activity_day db now = register_activity_core db [] now := by
    show register_activity_core (evaluate_discipline db now).1
      (evaluate_discipline db now).2 now = register_activity_core db [] now
    rw [hED]
  have hl' : (row_to_habit_state db.habit).streak_last_counted_date =
      some (dateOf now) := hl
  have hsd : (row_to_habit_state db.habit).streak_days =
      db.habit.streak_days := rfl
  by_cases hw : is_effective_workday db (row_to_habit_state db.habit)
      (dateOf now) = true
  · -- today is an effective workday
    have hcore : register_activity_core db [] now =
        register_challenge_update
          (dbWriteHabit db (row_to_habit_state db.habit))
          (row_to_habit_state db.habit) [] (dateOf now) := by
      simp only [register_activity_core]
      rw [if_neg (by simp [hw]),
        register_streak_state_same_day db (row_to_habit_state db.habit)
          (dateOf now) (by rw [hsd]; omega) hl']
    have hstreak2 : (dbWriteHabit db
        (row_to_habit_state db.habit)).habit.streak_days =
        db.habit.streak_days := by
      show max 0 db.habit.streak_days = db.habit.streak_days
      omega
    have hch2 : (dbWriteHabit db
        (row_to_habit_state db.habit)).challenge = db.challenge := rfl
    have hG2 : get_active_streak_challenge
        (dbWriteHabit db (row_to_habit_state db.habit)) =
        get_active_streak_challenge db :=
      get_active_streak_challenge_congr _ _ hch2
    cases hg : get_active_streak_challenge db with
    | none =>
      have hgu : register_challenge_update
          (dbWriteHabit db (row_to_habit_state db.habit))
          (row_to_habit_state db.habit) [] (dateOf now) =
          (dbWriteHabit db (row_to_habit_state db.habit), []) := by
        unfold register_challenge_update
        rw [hG2, hg]
      have hfinal : register_activity_day db now =
          (dbWriteHabit db (row_to_habit_state db.habit), []) := by
        rw [hkey, hcore, hgu]
      refine ⟨?_, ?_⟩
      · rw [hfinal]
        exact hstreak2
      · intro c c' hgc hgc'
        exact Option.noConfusion hgc
    | some c0 =>
      have hlast : c0.last_counted_date = some (dateOf now) := hc c0 hg
      have hG2c : get_active_streak_challenge
          (dbWriteHabit db (row_to_habit_state db.habit)) = some c0 :=
        hG2.trans hg
      have hinv := get_active_streak_challenge_inv db c0 hg
      have hgu : register_challenge_update
          (dbWriteHabit db (row_to_habit_state db.habit))
          (row_to_habit_state db.habit) [] (dateOf now) =
          challenge_completion_check
            (dbWriteHabit db (row_to_habit_state db.habit)) [] (some c0) := by
        simp [register_challenge_update, hG2c, hlast]
      by_cases hdone : c0.days_done ≥ c0.days_target
      · -- the completion check fires and retires the challenge
        have hdbc : (dbWriteHabit db
            (row_to_habit_state db.habit)).challenge = some c0 :=
          hch2.trans hinv.1
        have hcomp := complete_streak_challenge_active
          (dbWriteHabit db (row_to_habit_state db.habit)) c0
          (challenge_payout c0.wager_points) hdbc hinv.2
        have hcc : challenge_completion_check
            (dbWriteHabit db (row_to_habit_state db.habit)) [] (some c0) =
            ((apply_points_transaction
                { dbWriteHabit db (row_to_habit_state db.habit) with
                    challenge := some { c0 with status := "completed" } }
                (challenge_payout c0.wager_points)
                "streak_challenge_reward").2,
              [Event.challengeCompleted c0.days_target
                (challenge_payout c0.wager_points)]) := by
          simp only [challenge_completion_check]
          rw [if_pos hdone, hcomp]
          rfl
        have hfinal : register_activity_day db now =
            ((apply_points_transaction
                { dbWriteHabit db (row_to_habit_state db.habit) with
                    challenge := some { c0 with status := "completed" } }
                (challenge_payout c0.wager_points)
                "streak_challenge_reward").2,
              [Event.challengeCompleted c0.days_target
                (challenge_payout c0.wager_points)]) := by
          rw [hkey, hcore, hgu, hcc]
        refine ⟨?_, ?_⟩
        · rw [hfinal]
          show ((apply_points_transaction _ _ _ _).2).habit.streak_days =
            db.habit.streak_days
          rw [apply_points_transaction_habit]
          exact hstreak2
        · intro c c' hgc hgc'
          exfalso
          rw [hfinal] at hgc'
          have hgc2 : get_active_streak_challenge
              { dbWriteHabit db (row_to_habit_state db.habit) with
                  challenge := some { c0 with status := "completed" } } =
              some c' := by
            rw [← get_active_streak_challenge_congr _ _
              (apply_points_transaction_challenge _ _ _ _)]
            exact hgc'
          rw [get_active_streak_challenge_none_of_inactive _
            { c0 with status := "completed" } rfl (by simp)] at hgc2
          exact Option.noConfusion hgc2
      · -- not yet at the target: nothing changes
        have hcc : challenge_completion_check
            (dbWriteHabit db (row_to_habit_state db.habit)) [] (some c0) =
            (dbWriteHabit db (row_to_habit_state db.habit), []) := by
          simp only [challenge_completion_check]
          rw [if_neg hdone]
        have hfinal : register_activity_day db now =
            (dbWriteHabit db (row_to_habit_state db.habit), []) := by
          rw [hkey, hcore, hgu, hcc]
        refine ⟨?_, ?_⟩
        · rw [hfinal]
          exact hstreak2
        · intro c c' hgc hgc'
          rw [hfinal] at hgc'
          have hgc2 : some c0 = some c' := hG2c.symm.trans hgc'
          cases Option.some.inj hgc2
          cases Option.some.inj hgc
          rfl
  · -- not a workday: nothing but an info event
    have hcore : register_activity_core db [] now =
        (db, [Event.nonWorkdayInfo]) := by
      simp only [register_activity_core]
      rw [if_pos hw]
      rfl
    have hfinal : register_activity_day db now =
        (db, [Event.nonWorkdayInfo]) := by
      rw [hkey, hcore]
    refine ⟨?_, ?_⟩
    · rw [hfinal]
    · intro c c' hgc hgc'
      rw [hfinal] at hgc'
      have hgc2 : some c = some c' := hgc.symm.trans hgc'
      cases Option.some.inj hgc2
      rfl

/-- C10 witness: the amended theorem applied to `dbC10w` at Monday
midnight. -/
theorem register_activity_day_same_day_stable_witness :
    (register_activity_day dbC10w 0).1.habit.streak_days =
        dbC10w.habit.streak_days ∧
      ∀ c c', get_active_streak_challenge dbC10w = some c →
        get_active_streak_challenge (register_activity_day dbC10w 0).1 =
          some c' →
        c'.days_done = c.days_done :=
  register_activity_day_same_day_stable dbC10w 0
    ⟨-1, rfl, by decide⟩ (by decide) (by decide)
    (fun c hcEq => by
      have h : some cC10 = some c :=
        (by decide :
          get_active_streak_challenge dbC10w = some cC10).symm.trans hcEq
      cases Option.some.inj h
      decide)

end Timebot
